import Mathlib

/-!
Verification of the `digital_life` simulation core against its specification.

The Rust sources under `crates/digital-life-core` are shallowly embedded:
`f32`/`f64` values become `ℚ` (or `ℝ` for the neural-network layout claims,
where the value of `tanh` matters), machine integers become `ℕ` with explicit
bounds where overflow matters, and stateful code threads explicit state.
Transcendental primitives (`tanh`, `sin`, `cos`, `atan2`, `sqrt`) and the
external RNG stream (ChaCha12, an out-of-scope dependency per the spec) are
supplied by an environment record `Env`, so every definition stays executable
and theorems quantify over the environment.

Modules `agent.rs`, `config.rs`, `metabolism.rs`, `organism.rs`, the spatial
`count_neighbors`, and the resource-field `take`/`regenerate`/`total` are
absent from the provided sources (only their callers are); those definitions
are modelled from the specification and marked `Modelled from the spec`.
-/

namespace DL

/-- Rust `x.clamp(lo, hi)`: identity inside `[lo, hi]`, endpoint outside.
(Rust panics when `lo > hi`; the model then returns `lo`, a case no claim
exercises.) -/
def clampQ (x lo hi : ℚ) : ℚ := max lo (min x hi)

/-- Rust `f64::rem_euclid`: `a - b * ⌊a / b⌋`, the representative in `[0, b)`
for `b > 0`. -/
def qmod (a b : ℚ) : ℚ := a - b * ⌊a / b⌋

/-- Rust `as usize` cast of a float: truncation toward zero with negative
inputs saturating to 0, which `Int.toNat ∘ Int.floor` also yields. -/
def usizeCast (q : ℚ) : ℕ := (⌊q⌋).toNat

/-- Apply `f` to the element at position `n` (identity out of range):
Rust `slice[n] = f(slice[n])` on an in-range index. -/
def updateNth {α : Type} : List α → ℕ → (α → α) → List α
  | [], _, _ => []
  | a :: as, 0, f => f a :: as
  | a :: as, n + 1, f => a :: updateNth as n f

/-- Metabolic state of one organism (`metabolism.rs` is absent from src/).
Modelled from the spec: `MetabolicState = {energy, waste}`. -/
structure MetabolicState where
  energy : ℚ
  waste : ℚ
deriving DecidableEq

/-- Metabolism mode tag (`config.rs` is absent from src/). Modelled from the
spec: `metabolism_mode ∈ {Toy, Counter, Graph}`. -/
inductive MetabolismMode where
  | Toy
  | Counter
  | Graph
deriving DecidableEq

/-- Developmental stage factors (`organism.rs` is absent from src/). Modelled
from the spec: `stage_factors(maturity) → (boundary_factor, sensing_factor,
metabolic_efficiency_factor)`. -/
structure StageFactors where
  boundary : ℚ
  sensing : ℚ
  efficiency : ℚ
deriving DecidableEq

/-- Environment of primitives the core consumes from external collaborators.
`tanh`, `sin`, `cos`, `atan2`, `sqrt` stand for the float transcendentals;
`pi` for the float constant `PI`; `prng seed pos` is the deterministic RNG
stream abstracting ChaCha12 (the spec places the concrete RNG family out of
scope, requiring only a deterministic seeded stream); the remaining fields
model constants and functions of the repository modules missing from src/:
`maxTotalAgents` (`SimConfig::MAX_TOTAL_AGENTS`, value unspecified in the
spec), `resourceCap` (the per-cell regeneration cap), `defaultEnergy` and
`defaultWaste` (`MetabolicState::default()`), `metabStep` (the metabolism
engine: mode, optional Graph parameters decoded from genome segment 1, state,
external resource, dt ↦ new state and consumed flux), `devModifier` and
`devStage` (the developmental program decoded from genome segment 3). -/
structure Env where
  tanh : ℚ → ℚ
  sin : ℚ → ℚ
  cos : ℚ → ℚ
  sqrt : ℚ → ℚ
  atan2 : ℚ → ℚ → ℚ
  pi : ℚ
  prng : ℕ → ℕ → ℚ
  maxTotalAgents : ℕ
  resourceCap : ℚ
  defaultEnergy : ℚ
  defaultWaste : ℚ
  metabStep : MetabolismMode → Option (List ℚ) → MetabolicState → ℚ → ℚ → MetabolicState × ℚ
  devModifier : List ℚ → ℚ
  devStage : List ℚ → ℚ → StageFactors

/-- A seeded RNG stream position: ChaCha12 abstracted as the deterministic
stream `env.prng seed`, consumed one draw at a time. -/
structure Rng where
  seed : ℕ
  pos : ℕ
deriving DecidableEq

/-- One RNG draw (`rng.random::<f32>()` / `random::<f64>()`): the next stream
value, advancing the position. -/
def Rng.draw (g : Rng) (env : Env) : ℚ × Rng :=
  (env.prng g.seed g.pos, ⟨g.seed, g.pos + 1⟩)

/-- Mutation-rate record, from `genome.rs` `MutationRates`. -/
structure MutationRates where
  point_rate : ℚ
  point_scale : ℚ
  reset_rate : ℚ
  scale_rate : ℚ
  scale_min : ℚ
  scale_max : ℚ
  value_limit : ℚ
deriving DecidableEq

/-- Genome, from `genome.rs`: dense value vector plus the `(start, len)`
segment table. -/
structure Genome where
  data : List ℚ
  segments : List (ℕ × ℕ)
deriving DecidableEq

/-- Offsets computed from segment sizes, from the loop in `with_nn_weights`. -/
def segOffsets : ℕ → List ℕ → List (ℕ × ℕ)
  | _, [] => []
  | off, s :: rest => (off, s) :: segOffsets (off + s) rest

/-- Placeholder sizes of segments 1–6, from `with_nn_weights`. -/
def placeholderSizes : List ℕ := [16, 8, 8, 4, 4, 4]

/-- `Genome::with_nn_weights`: segment 0 holds the given weights, the other
segments are zero-filled in order. -/
def Genome.withNnWeights (w : List ℚ) : Genome :=
  { data := w ++ List.replicate placeholderSizes.sum 0
    segments := (0, w.length) :: segOffsets w.length placeholderSizes }

/-- `Genome::segment_data` , from `genome.rs` (the source asserts the index is
in range; out-of-range reads yield `[]` here). -/
def Genome.segmentData (g : Genome) (criterion : ℕ) : List ℚ :=
  let seg := g.segments.getD criterion (0, 0)
  (g.data.drop seg.1).take seg.2

/-- `Genome::nn_weights`. -/
def Genome.nnWeights (g : Genome) : List ℚ := g.segmentData 0

/-- Modelled from the spec: `set_segment_data(i, v)` overwrites segment `i`
(length must match); the function is called from `world/mod.rs` but absent
from the provided `genome.rs`. A length mismatch leaves the genome unchanged
(the source would assert). -/
def Genome.setSegmentData (g : Genome) (criterion : ℕ) (v : List ℚ) : Genome :=
  let seg := g.segments.getD criterion (0, 0)
  if v.length = seg.2 then
    { g with data := g.data.take seg.1 ++ v ++ g.data.drop (seg.1 + seg.2) }
  else g

/-- Element-wise mutation pass of `Genome::mutate`: per element one draw `r`
selects at most one of point/reset/scale (a second draw supplies the delta or
factor); `random_range(a..=b)` is modelled as `a + u * (b - a)` for a draw
`u`. -/
def mutateData (env : Env) (rates : MutationRates) : List ℚ → Rng → List ℚ × Rng
  | [], g => ([], g)
  | v :: vs, g =>
    let d1 := g.draw env
    let r := d1.1
    if r < rates.point_rate then
      let d2 := d1.2.draw env
      let delta := -rates.point_scale + d2.1 * (2 * rates.point_scale)
      let rest := mutateData env rates vs d2.2
      (clampQ (v + delta) (-rates.value_limit) rates.value_limit :: rest.1, rest.2)
    else if r < rates.point_rate + rates.reset_rate then
      let rest := mutateData env rates vs d1.2
      ((0 : ℚ) :: rest.1, rest.2)
    else if r < rates.point_rate + rates.reset_rate + rates.scale_rate then
      let d2 := d1.2.draw env
      let factor := rates.scale_min + d2.1 * (rates.scale_max - rates.scale_min)
      let rest := mutateData env rates vs d2.2
      (clampQ (v * factor) (-rates.value_limit) rates.value_limit :: rest.1, rest.2)
    else
      let rest := mutateData env rates vs d1.2
      (v :: rest.1, rest.2)

/-- `Genome::mutate`, threading the RNG. -/
def Genome.mutate (g : Genome) (env : Env) (rng : Rng) (rates : MutationRates) :
    Genome × Rng :=
  let res := mutateData env rates g.data rng
  ({ g with data := res.1 }, res.2)

/-- Resource field, from `resource.rs`. -/
structure ResourceField where
  width : ℕ
  height : ℕ
  cell_size : ℚ
  data : List ℚ
deriving DecidableEq

/-- `ResourceField::new`: square grid of `ceil(world_size / cell_size)` cells
per side, uniformly initialized. -/
def ResourceField.new (world_size cell_size initValue : ℚ) : ResourceField :=
  let width := (⌈world_size / cell_size⌉).toNat
  { width := width, height := width, cell_size := cell_size
    data := List.replicate (width * width) initValue }

/-- Cell x-index of `ResourceField::get`/`set`: `(x / cell_size) as usize`
clamped by `.min(width - 1)` — note this clamps, it does not wrap. -/
def ResourceField.cellX (f : ResourceField) (x : ℚ) : ℕ :=
  min (usizeCast (x / f.cell_size)) (f.width - 1)

/-- Cell y-index, clamped by `.min(height - 1)`. -/
def ResourceField.cellY (f : ResourceField) (y : ℚ) : ℕ :=
  min (usizeCast (y / f.cell_size)) (f.height - 1)

/-- `ResourceField::get`, from `resource.rs`. -/
def ResourceField.get (f : ResourceField) (x y : ℚ) : ℚ :=
  f.data.getD (f.cellY y * f.width + f.cellX x) 0

/-- `ResourceField::set`, from `resource.rs`. -/
def ResourceField.set (f : ResourceField) (x y v : ℚ) : ResourceField :=
  { f with data := f.data.set (f.cellY y * f.width + f.cellX x) v }

/-- Modelled from the spec: `take(x, y, amount)` decrements the cell by
`min(amount, cell_value)` and returns the amount actually taken
(`take` is called from `world/lifecycle.rs` but absent from `resource.rs`). -/
def ResourceField.take (f : ResourceField) (x y amount : ℚ) : ℚ × ResourceField :=
  let idx := f.cellY y * f.width + f.cellX x
  let cell := f.data.getD idx 0
  let taken := min amount cell
  (taken, { f with data := f.data.set idx (cell - taken) })

/-- Modelled from the spec: `regenerate(r)` adds `r` to every cell and clamps
to the configured per-cell cap (absent from `resource.rs`; the cap comes from
the environment). -/
def ResourceField.regenerate (f : ResourceField) (cap r : ℚ) : ResourceField :=
  { f with data := f.data.map fun c => min (c + r) cap }

/-- Modelled from the spec: `total()` sums every cell (absent from
`resource.rs`). -/
def ResourceField.total (f : ResourceField) : ℚ := f.data.sum

/-- Fixed-topology 8→16→4 network, from `nn.rs`, generic in the scalar type
(`ℝ` where the value of `tanh` matters, `ℚ` inside the world pipeline). -/
structure NeuralNet (α : Type) where
  w_ih : Fin 8 → Fin 16 → α
  b_h : Fin 16 → α
  w_ho : Fin 16 → Fin 4 → α
  b_o : Fin 4 → α

/-- `NeuralNet::from_weights`: the flat sequence is consumed row-major as
input-to-hidden (8×16, positions 0–127), hidden biases (128–143),
hidden-to-output (16×4, 144–207), output biases (208–211); sequential
consumption is expressed through these offsets. The source panics on a short
list; the model reads 0 there. -/
def NeuralNet.fromWeights {α : Type} [Zero α] (w : List α) : NeuralNet α :=
  { w_ih := fun i j => w.getD (16 * (i : ℕ) + (j : ℕ)) 0
    b_h := fun j => w.getD (128 + (j : ℕ)) 0
    w_ho := fun i j => w.getD (144 + 4 * (i : ℕ) + (j : ℕ)) 0
    b_o := fun j => w.getD (208 + (j : ℕ)) 0 }

/-- `NeuralNet::forward`: `tanh(W_ho · tanh(W_ih · x + b_h) + b_o)`, biases
initializing the accumulators as in the source. -/
def NeuralNet.forward {α : Type} [CommRing α] (tanh : α → α) (nn : NeuralNet α)
    (input : Fin 8 → α) : Fin 4 → α :=
  let hidden : Fin 16 → α := fun j =>
    tanh (nn.b_h j + ∑ i : Fin 8, input i * nn.w_ih i j)
  fun j => tanh (nn.b_o j + ∑ i : Fin 16, hidden i * nn.w_ho i j)

/-- Modelled from the spec: `to_weight_vec` serializes a network back to the
flat 212-element layout (called from `world/mod.rs`, absent from `nn.rs`);
the spec's neural round trip law fixes it as the decode inverse. -/
def NeuralNet.toWeightVec {α : Type} (nn : NeuralNet α) : List α :=
  (List.ofFn fun i : Fin 8 => List.ofFn fun j : Fin 16 => nn.w_ih i j).flatten ++
    List.ofFn nn.b_h ++
    (List.ofFn fun i : Fin 16 => List.ofFn fun j : Fin 4 => nn.w_ho i j).flatten ++
    List.ofFn nn.b_o

/-- `NeuralNet::WEIGHT_COUNT`. -/
def weightCount : ℕ := 8 * 16 + 16 + 16 * 4 + 4

/-- Four-slot internal state of an agent (`internal_state: [f32; 4]`). -/
structure IState where
  s0 : ℚ
  s1 : ℚ
  s2 : ℚ
  s3 : ℚ
deriving DecidableEq

/-- Agent record (`agent.rs` is absent from src/). Modelled from the spec §3:
identity, owning organism index, position, velocity, four-slot internal
state. -/
structure Agent where
  id : ℕ
  organism_id : ℕ
  position : ℚ × ℚ
  velocity : ℚ × ℚ
  internal_state : IState
deriving DecidableEq

/-- Modelled from the spec: `Agent::new(id, organism_id, position)` starts at
rest with zero internal state (child agents then set slot 2 to 1.0 explicitly,
per spec §4.8). -/
def Agent.new (id orgId : ℕ) (pos : ℚ × ℚ) : Agent :=
  { id := id, organism_id := orgId, position := pos, velocity := (0, 0),
    internal_state := ⟨0, 0, 0, 0⟩ }

/-- Flat configuration record (`config.rs` is absent from src/). Modelled from
the spec §6, keeping exactly the recognized options the core reads. -/
structure SimConfig where
  world_size : ℚ
  num_organisms : ℕ
  agents_per_organism : ℕ
  seed : ℕ
  dt : ℚ
  sensing_radius : ℚ
  max_speed : ℚ
  neighbor_norm : ℚ
  homeostasis_decay_rate : ℚ
  metabolism_mode : MetabolismMode
  metabolism_efficiency_multiplier : ℚ
  metabolic_viability_floor : ℚ
  death_energy_threshold : ℚ
  death_boundary_threshold : ℚ
  boundary_collapse_threshold : ℚ
  boundary_decay_base_rate : ℚ
  boundary_decay_energy_scale : ℚ
  boundary_waste_pressure_scale : ℚ
  boundary_repair_rate : ℚ
  boundary_repair_waste_penalty_scale : ℚ
  growth_maturation_steps : ℕ
  growth_immature_metabolic_efficiency : ℚ
  crowding_neighbor_threshold : ℚ
  crowding_boundary_decay : ℚ
  reproduction_min_energy : ℚ
  reproduction_min_boundary : ℚ
  reproduction_energy_cost : ℚ
  reproduction_spawn_radius : ℚ
  reproduction_child_min_agents : ℕ
  mutation_point_rate : ℚ
  mutation_point_scale : ℚ
  mutation_reset_rate : ℚ
  mutation_scale_rate : ℚ
  mutation_scale_min : ℚ
  mutation_scale_max : ℚ
  mutation_value_limit : ℚ
  max_organism_age_steps : ℕ
  compaction_interval_steps : ℕ
  resource_regeneration_rate : ℚ
  environment_shift_step : ℕ
  environment_shift_resource_rate : ℚ
  environment_cycle_period : ℕ
  environment_cycle_low_rate : ℚ
  enable_response : Bool
  enable_homeostasis : Bool
  enable_boundary_maintenance : Bool
  enable_metabolism : Bool
  enable_growth : Bool
  enable_reproduction : Bool
  enable_evolution : Bool
  enable_sham_process : Bool
deriving DecidableEq

/-- Modelled from the spec: configuration validation "rejects inconsistent
values (negative rates, probabilities > 1, zero dt, etc.)" and bounds
`world_size ≤ 2048`; the concrete check list lives in the absent
`config.rs`. -/
def SimConfig.validate (c : SimConfig) : Bool :=
  decide (0 < c.dt) && decide (0 < c.world_size) && decide (c.world_size ≤ 2048) &&
  decide (0 ≤ c.sensing_radius) && decide (0 < c.max_speed) &&
  decide (0 < c.neighbor_norm) && decide (0 ≤ c.homeostasis_decay_rate) &&
  decide (0 ≤ c.mutation_point_rate) && decide (0 ≤ c.mutation_reset_rate) &&
  decide (0 ≤ c.mutation_scale_rate) &&
  decide (c.mutation_point_rate + c.mutation_reset_rate + c.mutation_scale_rate ≤ 1) &&
  decide (0 ≤ c.mutation_value_limit) && decide (0 ≤ c.resource_regeneration_rate) &&
  decide (0 < c.compaction_interval_steps) && decide (0 < c.growth_maturation_steps)

/-- `mutation_rates_from_config`, from `world/mod.rs`. -/
def mutationRatesFromConfig (c : SimConfig) : MutationRates :=
  { point_rate := c.mutation_point_rate, point_scale := c.mutation_point_scale,
    reset_rate := c.mutation_reset_rate, scale_rate := c.mutation_scale_rate,
    scale_min := c.mutation_scale_min, scale_max := c.mutation_scale_max,
    value_limit := c.mutation_value_limit }

/-- Developmental program (`organism.rs` is absent from src/). Modelled from
the spec: decoded from genome segment 3 and carried by its raw parameters,
which `env.devModifier` / `env.devStage` interpret. -/
structure DevProgram where
  params : List ℚ
deriving DecidableEq

/-- Modelled from the spec: `DevelopmentalProgram::decode(segment 3)`. -/
def DevProgram.decode (seg : List ℚ) : DevProgram := ⟨seg⟩

/-- Organism runtime record, from `world/mod.rs` usage of `OrganismRuntime`
(`organism.rs` itself is absent; the field list is read off `try_new` and the
lifecycle code). The per-organism Graph engine is represented by its decoded
genome-segment parameters. -/
structure OrganismRuntime where
  id : ℕ
  stable_id : ℕ
  generation : ℕ
  age_steps : ℕ
  alive : Bool
  boundary_integrity : ℚ
  metabolic_state : MetabolicState
  genome : Genome
  ancestor_genome : Genome
  nn : NeuralNet ℚ
  agent_ids : List ℕ
  maturity : ℚ
  metabolism_engine : Option (List ℚ)
  developmental_program : DevProgram
  parent_stable_id : Option ℕ

/-- Stand-in organism for the source's panicking out-of-range index; its
`alive = false` also matches the `.get(..).map(..).unwrap_or(false)` sites.
Claims are evaluated on worlds satisfying the organism-id invariant, where it
is never read. -/
def dummyOrganism : OrganismRuntime :=
  { id := 0, stable_id := 0, generation := 0, age_steps := 0, alive := false,
    boundary_integrity := 0, metabolic_state := ⟨0, 0⟩, genome := ⟨[], []⟩,
    ancestor_genome := ⟨[], []⟩,
    nn := ⟨fun _ _ => 0, fun _ => 0, fun _ _ => 0, fun _ => 0⟩,
    agent_ids := [], maturity := 0, metabolism_engine := none,
    developmental_program := ⟨[]⟩, parent_stable_id := none }

/-- `decode_organism_metabolism`, from `world/mod.rs`: Graph mode decodes the
metabolic segment into a per-organism engine, Toy/Counter use the shared
engine (`None`). -/
def decodeOrganismMetabolism (genome : Genome) (mode : MetabolismMode) :
    Option (List ℚ) :=
  match mode with
  | MetabolismMode.Graph => some (genome.segmentData 1)
  | _ => none

/-- Lineage event, from `world/metrics.rs`. -/
structure LineageEvent where
  step : ℕ
  parent_stable_id : ℕ
  child_stable_id : ℕ
  generation : ℕ
deriving DecidableEq

/-- Per-sample metrics record, from `world/metrics.rs` `StepMetrics`. -/
structure StepMetrics where
  step : ℕ
  energy_mean : ℚ
  waste_mean : ℚ
  boundary_mean : ℚ
  alive_count : ℕ
  resource_total : ℚ
  birth_count : ℕ
  death_count : ℕ
  population_size : ℕ
  mean_generation : ℚ
  mean_genome_drift : ℚ
  agent_id_exhaustion_events : ℕ
  energy_std : ℚ
  waste_std : ℚ
  boundary_std : ℚ
  mean_age : ℚ
  internal_state_mean : ℚ × ℚ × ℚ × ℚ
  internal_state_std : ℚ × ℚ × ℚ × ℚ
  genome_diversity : ℚ
  max_generation : ℕ
  maturity_mean : ℚ
  spatial_cohesion_mean : ℚ
deriving DecidableEq

/-- Per-organism snapshot, from `world/metrics.rs`. -/
structure OrganismSnapshot where
  stable_id : ℕ
  generation : ℕ
  age_steps : ℕ
  energy : ℚ
  waste : ℚ
  boundary_integrity : ℚ
  maturity : ℚ
  center_x : ℚ
  center_y : ℚ
  n_agents : ℕ
deriving DecidableEq

/-- Snapshot frame, from `world/metrics.rs`. -/
structure SnapshotFrame where
  step : ℕ
  organisms : List OrganismSnapshot
deriving DecidableEq

/-- Run summary, from `world/metrics.rs`. -/
structure RunSummary where
  schema_version : ℕ
  steps : ℕ
  sample_every : ℕ
  final_alive_count : ℕ
  samples : List StepMetrics
  lifespans : List ℕ
  total_reproduction_events : ℕ
  lineage_events : List LineageEvent
  organism_snapshots : List SnapshotFrame
deriving DecidableEq

/-- World-construction errors, from `world/mod.rs` `WorldInitError`
(`AgentCountOverflow` is unreachable over `ℕ` but kept for the interface). -/
inductive WorldInitError where
  | config
  | agentCountOverflow
  | tooManyAgents (max actual : ℕ)
  | numOrganismsMismatch (expected actual : ℕ)
  | agentCountMismatch (expected actual : ℕ)
  | invalidOrganismId
deriving DecidableEq

/-- Experiment errors, from `world/mod.rs` `ExperimentError`. -/
inductive ExperimentError where
  | invalidSampleEvery
  | tooManySteps (max actual : ℕ)
  | tooManySamples (max actual : ℕ)
deriving DecidableEq

/-- Toroidal sine/cosine accumulator for one organism
(`org_toroidal_sums: [f64; 4]`). -/
structure Tor4 where
  sinX : ℚ
  cosX : ℚ
  sinY : ℚ
  cosY : ℚ
deriving DecidableEq

/-- World state, from `world/mod.rs` `World`; the shared metabolism engine of
Toy/Counter/Graph default is represented by its mode tag, its dynamics living
in `env.metabStep`. -/
structure World where
  agents : List Agent
  organisms : List OrganismRuntime
  config : SimConfig
  metabolism : MetabolismMode
  resource_field : ResourceField
  org_toroidal_sums : List Tor4
  org_counts : List ℕ
  rng : Rng
  next_agent_id : ℕ
  step_index : ℕ
  births_last_step : ℕ
  deaths_last_step : ℕ
  total_births : ℕ
  total_deaths : ℕ
  mutation_rates : MutationRates
  next_organism_stable_id : ℕ
  agent_id_exhaustions_last_step : ℕ
  total_agent_id_exhaustions : ℕ
  lifespans : List ℕ
  lineage_events : List LineageEvent
  current_resource_rate : ℚ

/-- `u32::MAX`. -/
def u32Max : ℕ := 4294967295

/-- `World::MAX_EXPERIMENT_STEPS`. -/
def maxExperimentSteps : ℕ := 1000000

/-- `World::MAX_EXPERIMENT_SAMPLES`. -/
def maxExperimentSamples : ℕ := 50000

/-- Pair each list element with its index. -/
def enumerate {α : Type} (l : List α) : List (ℕ × α) := (List.range l.length).zip l

/-- `World::terminal_boundary_threshold`, from `world/lifecycle.rs`. -/
def terminalBoundaryThreshold (w : World) : ℚ :=
  max w.config.boundary_collapse_threshold w.config.death_boundary_threshold

/-- Advance the agent-id allocator by one. -/
def World.bumpNext (w : World) : World :=
  { w with next_agent_id := w.next_agent_id + 1 }

/-- `World::next_agent_id_checked`, from `world/lifecycle.rs`: allocation
fails at `u32::MAX`, so that id is never handed out and the increment cannot
overflow. -/
def nextAgentIdChecked (w : World) : Option (ℕ × World) :=
  if w.next_agent_id = u32Max then none
  else some (w.next_agent_id, w.bumpNext)

/-- `World::live_flags`, from `world/mod.rs`. -/
def World.liveFlags (w : World) : List Bool := w.organisms.map (·.alive)

/-- Whether the organism referenced by index `idx` is alive, the
`.get(idx).map(|o| o.alive).unwrap_or(false)` pattern of the source. -/
def World.orgAliveAt (w : World) (idx : ℕ) : Bool :=
  ((w.organisms[idx]?).map (·.alive)).getD false

/-- `World::alive_count`, from `world/mod.rs`. -/
def World.aliveCount (w : World) : ℕ := (w.organisms.filter (·.alive)).length

/-- Remap construction of `prune_dead_entities`: walk the organism array,
assign consecutive new ids to survivors (clearing their `agent_ids` for the
rebuild), record `none` for the dead. -/
def buildRemap : List OrganismRuntime → ℕ → List (Option ℕ) × List OrganismRuntime
  | [], _ => ([], [])
  | o :: os, nextId =>
    if o.alive then
      let rest := buildRemap os (nextId + 1)
      (some nextId :: rest.1, { o with id := nextId, agent_ids := [] } :: rest.2)
    else
      let rest := buildRemap os nextId
      (none :: rest.1, rest.2)

/-- Agent pass of `prune_dead_entities`: agents of surviving organisms keep
everything but get the remapped `organism_id`; the rest are dropped
(an out-of-range `organism_id` also drops, as `remap.get(..)` flattens). -/
def remapAgents (remap : List (Option ℕ)) : List Agent → List Agent
  | [] => []
  | a :: as =>
    match remap.getD a.organism_id none with
    | some newId => { a with organism_id := newId } :: remapAgents remap as
    | none => remapAgents remap as

/-- The `agent_ids` rebuild loop shared by `try_new` and
`prune_dead_entities`: push each agent's id onto its organism's list, in
agent-array order. -/
def pushAgentIds (organisms : List OrganismRuntime) (agents : List Agent) :
    List OrganismRuntime :=
  agents.foldl
    (fun orgs a =>
      updateNth orgs a.organism_id fun o => { o with agent_ids := o.agent_ids ++ [a.id] })
    organisms

/-- `World::prune_dead_entities`, from `world/lifecycle.rs`. -/
def pruneDeadEntities (w : World) : World :=
  if w.organisms.all (·.alive) then w
  else
    let rm := buildRemap w.organisms 0
    let newAgents := remapAgents rm.1 w.agents
    let newOrgs := pushAgentIds rm.2 newAgents
    { w with
      organisms := newOrgs, agents := newAgents,
      org_toroidal_sums := List.replicate newOrgs.length ⟨0, 0, 0, 0⟩,
      org_counts := List.replicate newOrgs.length 0 }

/-- `World::mark_dead`, from `world/lifecycle.rs`: record the lifespan, clear
`alive`, zero the boundary, bump both death counters; idempotent. -/
def markDead (w : World) (idx : ℕ) : World :=
  match w.organisms[idx]? with
  | none => w
  | some o =>
    if o.alive then
      { w with
        lifespans := w.lifespans ++ [o.age_steps],
        organisms := updateNth w.organisms idx fun o =>
          { o with alive := false, boundary_integrity := 0 },
        deaths_last_step := w.deaths_last_step + 1,
        total_deaths := w.total_deaths + 1 }
    else w

/-- Squared toroidal Euclidean distance: per axis the shorter of direct and
wrapped separation. -/
def torDistSq (ws : ℚ) (p q : ℚ × ℚ) : ℚ :=
  let dx := min |p.1 - q.1| (ws - |p.1 - q.1|)
  let dy := min |p.2 - q.2| (ws - |p.2 - q.2|)
  dx * dx + dy * dy

/-- Modelled from the spec: `spatial::build_index_active` bulk-loads only
agents of live organisms (`spatial.rs` in src/ holds an older stub); the
model keeps the filtered list the queries scan. -/
def buildIndexActive (agents : List Agent) (flags : List Bool) : List Agent :=
  agents.filter fun a => flags.getD a.organism_id false

/-- Modelled from the spec §4.5: `spatial::count_neighbors` counts tree
points other than `self_id` whose toroidal Euclidean distance is at most the
radius, the radius clamped to `world_size / 2` (absent from the provided
`spatial.rs`). -/
def countNeighbors (tree : List Agent) (center : ℚ × ℚ) (radius : ℚ)
    (selfId : ℕ) (ws : ℚ) : ℕ :=
  let r := min radius (ws / 2)
  (tree.filter fun a =>
    (a.id != selfId) && decide (torDistSq ws a.position center ≤ r * r)).length

/-- `World::toroidal_mean_coord`, from `world/mod.rs`. -/
def toroidalMeanCoord (env : Env) (sumSin sumCos ws : ℚ) : ℚ :=
  if sumSin = 0 ∧ sumCos = 0 then 0
  else qmod (env.atan2 sumSin sumCos) (2 * env.pi) / (2 * env.pi) * ws

/-- `World::compute_organism_centers_with_counts`, from `world/mod.rs`:
fresh sine/cosine sums over agents of live organisms, then the toroidal mean
per organism with at least one agent. -/
def computeOrganismCentersWithCounts (env : Env) (w : World) :
    List (Option (ℚ × ℚ)) × List ℕ :=
  let ws := w.config.world_size
  let tw := 2 * env.pi / ws
  let n := w.organisms.length
  let sums := w.agents.foldl
    (fun (acc : List Tor4 × List ℕ) a =>
      if w.orgAliveAt a.organism_id then
        (updateNth acc.1 a.organism_id fun s =>
          ⟨s.sinX + env.sin (a.position.1 * tw), s.cosX + env.cos (a.position.1 * tw),
           s.sinY + env.sin (a.position.2 * tw), s.cosY + env.cos (a.position.2 * tw)⟩,
         updateNth acc.2 a.organism_id (· + 1))
      else acc)
    (List.replicate n ⟨0, 0, 0, 0⟩, List.replicate n 0)
  let centers := (List.range n).map fun i =>
    if sums.2.getD i 0 = 0 then none
    else
      let s := sums.1.getD i ⟨0, 0, 0, 0⟩
      some (toroidalMeanCoord env s.sinX s.cosX ws, toroidalMeanCoord env s.sinY s.cosY ws)
  (centers, sums.2)

/-- Draw `n` successive RNG values. -/
def drawN (env : Env) : ℕ → Rng → List ℚ × Rng
  | 0, g => ([], g)
  | n + 1, g =>
    let d := g.draw env
    let rest := drawN env n d.2
    (d.1 :: rest.1, rest.2)

/-- Graph-mode initialization loop of `try_new`: per organism, fill the
16-value metabolic segment with draws mapped into `[-0.5, 0.5)` and decode
the per-organism engine, threading the `seed + 1` RNG. -/
def graphInitOrgs (env : Env) (mode : MetabolismMode) :
    List OrganismRuntime → Rng → List OrganismRuntime × Rng
  | [], g => ([], g)
  | o :: os, g =>
    let d := drawN env 16 g
    let seg := d.1.map fun u => -(1 : ℚ) / 2 + u
    let genome := o.genome.setSegmentData 1 seg
    let o' := { o with
                genome := genome,
                metabolism_engine := decodeOrganismMetabolism genome mode }
    let rest := graphInitOrgs env mode os d.2
    (o' :: rest.1, rest.2)

/-- Founder organism construction inside `try_new`. -/
def founderOrganism (env : Env) (id : ℕ) (nn : NeuralNet ℚ) : OrganismRuntime :=
  let genome := Genome.withNnWeights nn.toWeightVec
  { id := id, stable_id := id, generation := 0, age_steps := 0, alive := true,
    boundary_integrity := 1,
    metabolic_state := ⟨env.defaultEnergy, env.defaultWaste⟩,
    genome := genome, ancestor_genome := genome, nn := nn, agent_ids := [],
    maturity := 1, metabolism_engine := none,
    developmental_program := DevProgram.decode (genome.segmentData 3),
    parent_stable_id := none }

/-- `World::try_new`, from `world/mod.rs` (`checked_mul` cannot overflow over
`ℕ`, so `AgentCountOverflow` never arises; `MAX_TOTAL_AGENTS` comes from the
environment as `config.rs` is absent). -/
def tryNew (env : Env) (agents : List Agent) (nns : List (NeuralNet ℚ))
    (config : SimConfig) : Except WorldInitError World :=
  if ¬ config.validate then Except.error WorldInitError.config
  else if config.num_organisms ≠ nns.length then
    Except.error (WorldInitError.numOrganismsMismatch config.num_organisms nns.length)
  else
    let expected := config.num_organisms * config.agents_per_organism
    if expected > env.maxTotalAgents then
      Except.error (WorldInitError.tooManyAgents env.maxTotalAgents expected)
    else if agents.length ≠ expected then
      Except.error (WorldInitError.agentCountMismatch expected agents.length)
    else if ¬ agents.all (fun a => a.organism_id < nns.length) then
      Except.error WorldInitError.invalidOrganismId
    else
      let organisms0 := (enumerate nns).map fun p => founderOrganism env p.1 p.2
      let organisms1 := pushAgentIds organisms0 agents
      let organisms :=
        if config.metabolism_mode = MetabolismMode.Graph then
          (graphInitOrgs env config.metabolism_mode organisms1
            ⟨(config.seed + 1) % 2 ^ 64, 0⟩).1
        else organisms1
      let maxAgentId := (agents.map (·.id)).foldr max 0
      Except.ok
        { agents := agents, organisms := organisms, config := config,
          metabolism := config.metabolism_mode,
          resource_field := ResourceField.new config.world_size 1 1,
          org_toroidal_sums := List.replicate organisms.length ⟨0, 0, 0, 0⟩,
          org_counts := List.replicate organisms.length 0,
          rng := ⟨config.seed, 0⟩,
          next_agent_id := min (maxAgentId + 1) u32Max,
          step_index := 0, births_last_step := 0, deaths_last_step := 0,
          total_births := 0, total_deaths := 0,
          mutation_rates := mutationRatesFromConfig config,
          next_organism_stable_id := organisms.length,
          agent_id_exhaustions_last_step := 0, total_agent_id_exhaustions := 0,
          lifespans := [], lineage_events := [],
          current_resource_rate := config.resource_regeneration_rate }

/-- `World::effective_sensing_radius`, from `world/lifecycle.rs`. -/
def effectiveSensingRadius (env : Env) (w : World) (orgIdx : ℕ) : ℚ :=
  let o := w.organisms.getD orgIdx dummyOrganism
  let devSensing :=
    if w.config.enable_growth then
      (env.devStage o.developmental_program.params o.maturity).sensing
    else 1
  w.config.sensing_radius * devSensing

/-- Accumulator of the NN query phase: per-agent deltas plus per-organism
neighbor sums and counts. -/
structure NnQueryOut where
  deltas : List (Fin 4 → ℚ)
  neighborSums : List ℚ
  neighborCounts : List ℕ

/-- Loop body of `step_nn_query_phase`, from `world/lifecycle.rs`: agents of
dead organisms get zero deltas; live ones query neighbors, accumulate the
per-organism sums, and run the network on the 8-vector input. -/
def nnQueryGo (env : Env) (w : World) (tree : List Agent) :
    List Agent → List ℚ → List ℕ → NnQueryOut
  | [], sums, counts => ⟨[], sums, counts⟩
  | a :: as, sums, counts =>
    if w.orgAliveAt a.organism_id then
      let idx := a.organism_id
      let org := w.organisms.getD idx dummyOrganism
      let er := effectiveSensingRadius env w idx
      let nc := countNeighbors tree a.position er a.id w.config.world_size
      let input : Fin 8 → ℚ := fun i =>
        [a.position.1 / w.config.world_size, a.position.2 / w.config.world_size,
         a.velocity.1 / w.config.max_speed, a.velocity.2 / w.config.max_speed,
         a.internal_state.s0, a.internal_state.s1, a.internal_state.s2,
         (nc : ℚ) / w.config.neighbor_norm].getD i 0
      let delta := org.nn.forward env.tanh input
      let rest := nnQueryGo env w tree as
        (updateNth sums idx (· + (nc : ℚ))) (updateNth counts idx (· + 1))
      ⟨delta :: rest.deltas, rest.neighborSums, rest.neighborCounts⟩
    else
      let rest := nnQueryGo env w tree as sums counts
      ⟨(fun _ => 0) :: rest.deltas, rest.neighborSums, rest.neighborCounts⟩

/-- `World::step_nn_query_phase`, from `world/lifecycle.rs`. -/
def stepNnQueryPhase (env : Env) (w : World) (tree : List Agent) : NnQueryOut :=
  nnQueryGo env w tree w.agents
    (List.replicate w.organisms.length 0) (List.replicate w.organisms.length 0)

/-- Accumulator of the agent-state phase. -/
structure StateOut where
  agents : List Agent
  tor : List Tor4
  cnt : List ℕ
  homeoSums : List ℚ
  homeoCounts : List ℕ

/-- Loop body of `step_agent_state_phase`, from `world/lifecycle.rs`: agents
of dead organisms get zero velocity; live ones mirror last tick's boundary
into slot 2, integrate velocity (when `enable_response`), clamp speed,
integrate and wrap position, decay then optionally steer slots 0–1, and feed
the homeostasis and toroidal accumulators. -/
def agentStateGo (env : Env) (cfg : SimConfig) (orgs : List OrganismRuntime) :
    List (Agent × (Fin 4 → ℚ)) → List Tor4 → List ℕ → List ℚ → List ℕ → StateOut
  | [], tor, cnt, hs, hc => ⟨[], tor, cnt, hs, hc⟩
  | (a, delta) :: rest, tor, cnt, hs, hc =>
    let idx := a.organism_id
    if ((orgs[idx]?).map (·.alive)).getD false then
      let org := orgs.getD idx dummyOrganism
      let s2 := org.boundary_integrity
      let v0 :=
        if cfg.enable_response then
          (a.velocity.1 + delta 0 * cfg.dt, a.velocity.2 + delta 1 * cfg.dt)
        else a.velocity
      let speedSq := v0.1 * v0.1 + v0.2 * v0.2
      let v :=
        if speedSq > cfg.max_speed * cfg.max_speed then
          let scale := cfg.max_speed / env.sqrt speedSq
          (v0.1 * scale, v0.2 * scale)
        else v0
      let pos := (qmod (a.position.1 + v.1 * cfg.dt) cfg.world_size,
                  qmod (a.position.2 + v.2 * cfg.dt) cfg.world_size)
      let hdecay := cfg.homeostasis_decay_rate * cfg.dt
      let s0a := max (a.internal_state.s0 - hdecay) 0
      let s1a := max (a.internal_state.s1 - hdecay) 0
      let s0 := if cfg.enable_homeostasis then clampQ (s0a + delta 2 * cfg.dt) 0 1 else s0a
      let s1 := if cfg.enable_homeostasis then clampQ (s1a + delta 3 * cfg.dt) 0 1 else s1a
      let a' := { a with
                  velocity := v, position := pos,
                  internal_state := ⟨s0, s1, s2, a.internal_state.s3⟩ }
      let tw := 2 * env.pi / cfg.world_size
      let tx := pos.1 * tw
      let ty := pos.2 * tw
      let r := agentStateGo env cfg orgs rest
        (updateNth tor idx fun s =>
          ⟨s.sinX + env.sin tx, s.cosX + env.cos tx,
           s.sinY + env.sin ty, s.cosY + env.cos ty⟩)
        (updateNth cnt idx (· + 1))
        (updateNth hs idx (· + s0))
        (updateNth hc idx (· + 1))
      ⟨a' :: r.agents, r.tor, r.cnt, r.homeoSums, r.homeoCounts⟩
    else
      let a' := { a with velocity := (0, 0) }
      let r := agentStateGo env cfg orgs rest tor cnt hs hc
      ⟨a' :: r.agents, r.tor, r.cnt, r.homeoSums, r.homeoCounts⟩

/-- `World::step_agent_state_phase`, from `world/lifecycle.rs`: refills the
per-organism toroidal accumulators and returns the homeostasis aggregates. -/
def stepAgentStatePhase (env : Env) (w : World) (deltas : List (Fin 4 → ℚ)) :
    World × List ℚ × List ℕ :=
  let n := w.organisms.length
  let r := agentStateGo env w.config w.organisms (w.agents.zip deltas)
    (List.replicate n ⟨0, 0, 0, 0⟩) (List.replicate n 0)
    (List.replicate n 0) (List.replicate n 0)
  ({ w with agents := r.agents, org_toroidal_sums := r.tor, org_counts := r.cnt },
   r.homeoSums, r.homeoCounts)

/-- `World::step_boundary_phase`, from `world/lifecycle.rs`: dead organisms
are pinned at boundary 0; live ones apply decay and repair, clamp to `[0,1]`,
and are marked dead at or below the terminal threshold. -/
def stepBoundaryPhase (env : Env) (hs : List ℚ) (hc : List ℕ) (thr : ℚ)
    (w : World) : World :=
  if ¬ w.config.enable_boundary_maintenance then w
  else
    let cfg := w.config
    let newOrgs := (enumerate w.organisms).map fun p =>
      let i := p.1
      let o := p.2
      if ¬ o.alive then { o with boundary_integrity := 0 }
      else
        let deficit := max (cfg.metabolic_viability_floor - o.metabolic_state.energy) 0
        let decay := cfg.boundary_decay_base_rate +
          cfg.boundary_decay_energy_scale *
            (deficit + o.metabolic_state.waste * cfg.boundary_waste_pressure_scale)
        let hf := if hc.getD i 0 > 0 then hs.getD i 0 / (hc.getD i 0 : ℚ) else 1 / 2
        let devB :=
          if cfg.enable_growth then
            (env.devStage o.developmental_program.params o.maturity).boundary
          else 1
        let repair := max (o.metabolic_state.energy -
            o.metabolic_state.waste * cfg.boundary_waste_pressure_scale *
              cfg.boundary_repair_waste_penalty_scale) 0 *
          cfg.boundary_repair_rate * hf * devB
        { o with boundary_integrity :=
            clampQ (o.boundary_integrity - decay * cfg.dt + repair * cfg.dt) 0 1 }
    let toKill := (List.range newOrgs.length).filter fun i =>
      (w.organisms.getD i dummyOrganism).alive &&
        decide ((newOrgs.getD i dummyOrganism).boundary_integrity ≤ thr)
    toKill.foldl markDead { w with organisms := newOrgs }

/-- Loop body of `step_metabolism_phase`, from `world/lifecycle.rs`: per live
organism, sample the field at the toroidal center, run the engine, scale a
positive energy gain by the growth factor and efficiency multiplier, draw the
consumed flux from the field, and collect death marks. -/
def metabGo (env : Env) (cfg : SimConfig) (mode : MetabolismMode)
    (tor : List Tor4) (cnt : List ℕ) (thr : ℚ) :
    List ℕ → List OrganismRuntime → ResourceField →
      List OrganismRuntime × ResourceField × List ℕ
  | [], orgs, f => (orgs, f, [])
  | i :: is, orgs, f =>
    let o := orgs.getD i dummyOrganism
    if ¬ o.alive then metabGo env cfg mode tor cnt thr is orgs f
    else
      let center :=
        if cnt.getD i 0 > 0 then
          let t := tor.getD i ⟨0, 0, 0, 0⟩
          (toroidalMeanCoord env t.sinX t.cosX cfg.world_size,
           toroidalMeanCoord env t.sinY t.cosY cfg.world_size)
        else (0, 0)
      let external := f.get center.1 center.2
      let preE := o.metabolic_state.energy
      let res := env.metabStep mode o.metabolism_engine o.metabolic_state external cfg.dt
      let delta := res.1.energy - preE
      let st :=
        if delta > 0 then
          let gf :=
            if cfg.enable_growth then
              (env.devStage o.developmental_program.params o.maturity).efficiency
            else
              cfg.growth_immature_metabolic_efficiency +
                o.maturity * (1 - cfg.growth_immature_metabolic_efficiency)
          { res.1 with energy :=
              preE + delta * gf * cfg.metabolism_efficiency_multiplier }
        else res.1
      let f' := if res.2 > 0 then (f.take center.1 center.2 res.2).2 else f
      let orgs' := updateNth orgs i fun o => { o with metabolic_state := st }
      let kill := st.energy ≤ cfg.death_energy_threshold ∨ o.boundary_integrity ≤ thr
      let rest := metabGo env cfg mode tor cnt thr is orgs' f'
      (rest.1, rest.2.1, (if kill then [i] else []) ++ rest.2.2)

/-- `World::step_metabolism_phase`, from `world/lifecycle.rs`. -/
def stepMetabolismPhase (env : Env) (thr : ℚ) (w : World) : World :=
  if ¬ w.config.enable_metabolism then w
  else
    let r := metabGo env w.config w.metabolism w.org_toroidal_sums w.org_counts thr
      (List.range w.organisms.length) w.organisms w.resource_field
    r.2.2.foldl markDead { w with organisms := r.1, resource_field := r.2.1 }

/-- Loop body of `step_growth_and_crowding_phase`, from `world/lifecycle.rs`:
age (death past the cap skips the rest), maturation, crowding decay, terminal
boundary check. -/
def growthGo (env : Env) (cfg : SimConfig) (ns : List ℚ) (ncnt : List ℕ)
    (thr : ℚ) : List ℕ → List OrganismRuntime → List OrganismRuntime × List ℕ
  | [], orgs => (orgs, [])
  | i :: is, orgs =>
    let o := orgs.getD i dummyOrganism
    if ¬ o.alive then growthGo env cfg ns ncnt thr is orgs
    else
      let o1 := { o with age_steps := o.age_steps + 1 }
      if o1.age_steps > cfg.max_organism_age_steps then
        let rest := growthGo env cfg ns ncnt thr is (updateNth orgs i fun _ => o1)
        (rest.1, i :: rest.2)
      else
        let o2 :=
          if cfg.enable_growth ∧ o1.maturity < 1 then
            let rate := 1 / (cfg.growth_maturation_steps : ℚ) *
              env.devModifier o1.developmental_program.params
            { o1 with maturity := min (o1.maturity + rate) 1 }
          else o1
        let avg := if ncnt.getD i 0 > 0 then ns.getD i 0 / (ncnt.getD i 0 : ℚ) else 0
        let o3 :=
          if avg > cfg.crowding_neighbor_threshold then
            { o2 with boundary_integrity :=
                clampQ (o2.boundary_integrity -
                  (avg - cfg.crowding_neighbor_threshold) *
                    cfg.crowding_boundary_decay * cfg.dt) 0 1 }
          else o2
        let rest := growthGo env cfg ns ncnt thr is (updateNth orgs i fun _ => o3)
        (rest.1, (if o3.boundary_integrity ≤ thr then [i] else []) ++ rest.2)

/-- `World::step_growth_and_crowding_phase`, from `world/lifecycle.rs`. -/
def stepGrowthCrowdingPhase (env : Env) (ns : List ℚ) (ncnt : List ℕ)
    (thr : ℚ) (w : World) : World :=
  let r := growthGo env w.config ns ncnt thr (List.range w.organisms.length) w.organisms
  r.2.foldl markDead { w with organisms := r.1 }

/-- `child_agents` of `maybe_reproduce`:
`max(agents_per_organism / 2, reproduction_child_min_agents)`. -/
def childAgentsOf (cfg : SimConfig) : ℕ :=
  max (cfg.agents_per_organism / 2) cfg.reproduction_child_min_agents

/-- Parent eligibility filter of `maybe_reproduce`: alive, energy and
boundary at their thresholds, fully mature. -/
def parentIndices (w : World) : List ℕ :=
  (List.range w.organisms.length).filter fun i =>
    let o := w.organisms.getD i dummyOrganism
    o.alive && decide (o.metabolic_state.energy ≥ w.config.reproduction_min_energy)
      && decide (o.boundary_integrity ≥ w.config.reproduction_min_boundary)
      && decide (o.maturity ≥ 1)

/-- Spawn position of one child agent: polar draw (angle `u1`, `√u2`-scaled
radius) around the parent center, wrapped around the torus. -/
def spawnPos (env : Env) (cfg : SimConfig) (center : ℚ × ℚ) (u1 u2 : ℚ) : ℚ × ℚ :=
  let theta := u1 * 2 * env.pi
  let radius := env.sqrt u2 * cfg.reproduction_spawn_radius
  (qmod (center.1 + radius * env.cos theta) cfg.world_size,
   qmod (center.2 + radius * env.sin theta) cfg.world_size)

/-- A freshly spawned child agent: at rest with slot 2 set to 1.0. -/
def childAgent (id orgId : ℕ) (pos : ℚ × ℚ) : Agent :=
  let a0 := Agent.new id orgId pos
  { a0 with internal_state := { a0.internal_state with s2 := 1 } }

/-- Replace the world RNG (the state after some draws). -/
def World.withRng (w : World) (g : Rng) : World := { w with rng := g }

/-- Append one agent to the world. -/
def World.pushAgent (w : World) (a : Agent) : World :=
  { w with agents := w.agents ++ [a] }

/-- Spawn loop of `maybe_reproduce`: per child agent two draws (angle, then
radius), then a checked id allocation — failure stops the loop with the draws
already consumed, as in the source. Returns the world with the agents pushed
and the ids allocated, in order. -/
def spawnChildren (env : Env) (cfg : SimConfig) (childId : ℕ) (center : ℚ × ℚ) :
    ℕ → World → World × List ℕ
  | 0, w => (w, [])
  | n + 1, w =>
    let d1 := w.rng.draw env
    let d2 := d1.2.draw env
    let pos := spawnPos env cfg center d1.1 d2.1
    let w1 := w.withRng d2.2
    match nextAgentIdChecked w1 with
    | none => (w1, [])
    | some idw =>
      let w2 := idw.2.pushAgent (childAgent idw.1 childId pos)
      let rest := spawnChildren env cfg childId center n w2
      (rest.1, idw.1 :: rest.2)

/-- Record one agent-id exhaustion event (both counters). -/
def recordExhaustion (w : World) : World :=
  { w with
    agent_id_exhaustions_last_step := w.agent_id_exhaustions_last_step + 1,
    total_agent_id_exhaustions := w.total_agent_id_exhaustions + 1 }

/-- Deduct the reproduction energy cost from the parent. -/
def deductParentEnergy (w : World) (pidx : ℕ) : World :=
  { w with
    organisms := updateNth w.organisms pidx fun o =>
      { o with metabolic_state :=
          { o.metabolic_state with energy :=
              o.metabolic_state.energy - w.config.reproduction_energy_cost } } }

/-- Clone-and-mutate of the child genome: mutate on the main RNG when
evolution is enabled, otherwise pass the genome and RNG through. -/
def mutateChildGenome (env : Env) (w : World) (g : Genome) : Genome × Rng :=
  if w.config.enable_evolution then g.mutate env w.rng w.mutation_rates
  else (g, w.rng)

/-- The child organism record of `maybe_reproduce`. -/
def mkChildOrganism (env : Env) (w : World) (childId : ℕ)
    (childGenome parentAncestor : Genome) (childNn : NeuralNet ℚ)
    (parentGeneration parentStableId : ℕ) (agentIds : List ℕ) :
    OrganismRuntime :=
  { id := childId, stable_id := w.next_organism_stable_id,
    generation := parentGeneration + 1, age_steps := 0, alive := true,
    boundary_integrity := 1,
    metabolic_state := ⟨w.config.reproduction_energy_cost, env.defaultWaste⟩,
    genome := childGenome, ancestor_genome := parentAncestor, nn := childNn,
    agent_ids := agentIds, maturity := 0,
    metabolism_engine := decodeOrganismMetabolism childGenome w.config.metabolism_mode,
    developmental_program := DevProgram.decode (childGenome.segmentData 3),
    parent_stable_id := some parentStableId }

/-- Push the finished child organism: bump the stable-id counter, append the
lineage event, the organism, its aggregate slots, and the birth counters. -/
def pushChildOrganism (w : World) (parentStableId : ℕ)
    (child : OrganismRuntime) : World :=
  { w with
    next_organism_stable_id := w.next_organism_stable_id + 1,
    lineage_events := w.lineage_events ++
      [⟨w.step_index, parentStableId, child.stable_id, child.generation⟩],
    organisms := w.organisms ++ [child],
    org_toroidal_sums := w.org_toroidal_sums ++ [⟨0, 0, 0, 0⟩],
    org_counts := w.org_counts ++ [0],
    births_last_step := w.births_last_step + 1,
    total_births := w.total_births + 1 }

/-- Parent loop of `maybe_reproduce`, from `world/lifecycle.rs`: per parent,
capacity and id-space checks (`break` on failure, recording an exhaustion
only in the id-space case), a liveness/energy re-check (`continue`), energy
deduction, genome clone + optional mutation, child NN decode with the
212-length fallback, the `u16` id bound, spawning, and the child push with
its lineage event. -/
def reproduceGo (env : Env) (childAgents : ℕ) (centers : List (Option (ℚ × ℚ))) :
    List ℕ → World → World
  | [], w => w
  | pidx :: rest, w =>
    if w.agents.length + childAgents > env.maxTotalAgents then w
    else if u32Max - w.next_agent_id + 1 < childAgents then recordExhaustion w
    else
      let center := (centers.getD pidx none).getD (0, 0)
      let parent := w.organisms.getD pidx dummyOrganism
      if ¬ parent.alive ∨ parent.metabolic_state.energy < w.config.reproduction_energy_cost then
        reproduceGo env childAgents centers rest w
      else
        let w1 := deductParentEnergy w pidx
        let mg := mutateChildGenome env w1 parent.genome
        let childGenome := mg.1
        let w2 := w1.withRng mg.2
        let childWeights :=
          if childGenome.nnWeights.length = weightCount then childGenome.nnWeights
          else (w2.organisms.getD pidx dummyOrganism).nn.toWeightVec
        let childNn := NeuralNet.fromWeights childWeights
        if w2.organisms.length < 65536 then
          let childId := w2.organisms.length
          let sp := spawnChildren env w2.config childId center childAgents w2
          if sp.2.isEmpty then sp.1
          else
            let child := mkChildOrganism env sp.1 childId childGenome
              parent.ancestor_genome childNn parent.generation parent.stable_id sp.2
            reproduceGo env childAgents centers rest
              (pushChildOrganism sp.1 parent.stable_id child)
        else w2

/-- `World::maybe_reproduce`, from `world/lifecycle.rs`: centers are
computed once, before the loop. -/
def maybeReproduce (env : Env) (w : World) : World :=
  let parents := parentIndices w
  if parents.isEmpty then w
  else
    let centers := (computeOrganismCentersWithCounts env w).1
    reproduceGo env (childAgentsOf w.config) centers parents w

/-- `World::step_environment_phase`, from `world/lifecycle.rs`: the sham
process computes and discards a sum, leaving no state effect, so the model
omits it; then shift and cycle updates of the regeneration rate, and the
regeneration itself when positive. -/
def stepEnvironmentPhase (env : Env) (w : World) : World :=
  let w1 :=
    if w.config.environment_shift_step > 0 ∧
        w.step_index = w.config.environment_shift_step then
      { w with current_resource_rate := w.config.environment_shift_resource_rate }
    else w
  let w2 :=
    if w1.config.environment_cycle_period > 0 then
      { w1 with current_resource_rate :=
          if w1.step_index / w1.config.environment_cycle_period % 2 = 0 then
            w1.config.resource_regeneration_rate
          else w1.config.environment_cycle_low_rate }
    else w1
  if w2.current_resource_rate > 0 then
    { w2 with resource_field :=
        (w2.resource_field.regenerate env.resourceCap
          (w2.current_resource_rate * w2.config.dt)) }
  else w2

/-- `World::step`, from `world/lifecycle.rs`: the seven ordered phases, then
conditional reproduction, conditional compaction (dead fraction ≥ 25% or a
compaction-interval step), then the environment phase. Timings are
wall-clock-only and carry no state, so the model returns the world. -/
def step (env : Env) (w : World) : World :=
  let w0 := { w with
    step_index := w.step_index + 1, births_last_step := 0,
    deaths_last_step := 0, agent_id_exhaustions_last_step := 0 }
  let thr := terminalBoundaryThreshold w0
  let tree := buildIndexActive w0.agents w0.liveFlags
  let q := stepNnQueryPhase env w0 tree
  let s := stepAgentStatePhase env w0 q.deltas
  let w1 := stepBoundaryPhase env s.2.1 s.2.2 thr s.1
  let w2 := stepMetabolismPhase env thr w1
  let w3 := stepGrowthCrowdingPhase env q.neighborSums q.neighborCounts thr w2
  let w4 := if w3.config.enable_reproduction then maybeReproduce env w3 else w3
  let deadCount := (w4.organisms.filter fun o => ¬ o.alive).length
  let w5 :=
    if deadCount > 0 ∧
        (w4.step_index % w4.config.compaction_interval_steps = 0 ∨
          deadCount * 4 ≥ max w4.organisms.length 1) then
      pruneDeadEntities w4
    else w4
  stepEnvironmentPhase env w5

/-- `l2_distance`, from `world/metrics.rs`: truncating zip, squared
differences, square root. -/
def l2Distance (env : Env) (a b : List ℚ) : ℚ :=
  env.sqrt (((a.zip b).map fun p => (p.1 - p.2) ^ 2).sum)

/-- `World::genome_drift`, from `world/metrics.rs`: mean absolute difference
of the neural weights against the ancestor genome (truncating zip). -/
def genomeDrift (o : OrganismRuntime) : ℚ :=
  let current := o.genome.nnWeights
  let ancestor := o.ancestor_genome.nnWeights
  let len := min current.length ancestor.length
  if len = 0 then 0
  else ((current.zip ancestor).map fun p => |p.1 - p.2|).sum / (len : ℚ)

/-- Sample standard deviation helper `std_dev` of `collect_step_metrics`:
zero below two samples, else the square root of the `(n-1)`-denominator
variance. -/
def stdDev (env : Env) (vals : List ℚ) (mean : ℚ) : ℚ :=
  if vals.length < 2 then 0
  else env.sqrt ((vals.map fun v => (v - mean) ^ 2).sum / ((vals.length - 1 : ℕ) : ℚ))

/-- `rng.random_range(0..n)` for the pair sampler, modelled as a
deterministic function of one draw landing in `[0, n)` for `n > 0`. -/
def sampleRandRange (env : Env) (g : Rng) (n : ℕ) : ℕ × Rng :=
  let d := g.draw env
  (usizeCast (d.1 * n) % n, d.2)

/-- Sampled-pair branch of `compute_genome_diversity`: per pair, draw `i`
from `[0, n)` and `j` from `[0, n-1)` skipping `i`, and sum the L2
distances. -/
def diversityPairs (env : Env) (genomes : List (List ℚ)) (n : ℕ) :
    ℕ → Rng → ℚ
  | 0, _ => 0
  | k + 1, g =>
    let s1 := sampleRandRange env g n
    let s2 := sampleRandRange env s1.2 (n - 1)
    let j := if s2.1 ≥ s1.1 then s2.1 + 1 else s2.1
    l2Distance env (genomes.getD s1.1 []) (genomes.getD j []) +
      diversityPairs env genomes n k s2.2

/-- Exhaustive branch of `compute_genome_diversity`: all unordered pairs in
index order. -/
def allPairsSum (env : Env) : List (List ℚ) → ℚ
  | [] => 0
  | g :: gs => (gs.map (l2Distance env g)).sum + allPairsSum env gs

/-- `World::compute_genome_diversity`, from `world/metrics.rs`: mean L2
distance between alive genomes, enumerating all pairs when `C(n,2) ≤ 50`,
else sampling exactly 50 pairs with a fresh RNG seeded from `step_index`.
The signature exposes exactly the state the source reads — the step index
and the organism list. -/
def computeGenomeDiversity (env : Env) (stepIndex : ℕ)
    (organisms : List OrganismRuntime) : ℚ :=
  let genomes := (organisms.filter (·.alive)).map (·.genome.data)
  let n := genomes.length
  if n < 2 then 0
  else
    let totalPairs := n * (n - 1) / 2
    if totalPairs ≤ 50 then allPairsSum env genomes / (totalPairs : ℚ)
    else diversityPairs env genomes n 50 ⟨stepIndex, 0⟩ / 50

/-- Pairwise toroidal distance sum of one organism's agents, from
`compute_spatial_cohesion`. -/
def pairDistSum (env : Env) (ws : ℚ) : List (ℚ × ℚ) → ℚ
  | [] => 0
  | p :: ps =>
    (ps.map fun q =>
      let dx0 := |p.1 - q.1|
      let dx := if dx0 > ws / 2 then ws - dx0 else dx0
      let dy0 := |p.2 - q.2|
      let dy := if dy0 > ws / 2 then ws - dy0 else dy0
      env.sqrt (dx * dx + dy * dy)).sum + pairDistSum env ws ps

/-- `World::compute_spatial_cohesion`, from `world/metrics.rs`: mean over
alive organisms with at least two agents of their mean pairwise toroidal
agent distance (agents matched on the organism's `id` field). -/
def computeSpatialCohesion (env : Env) (w : World) : ℚ :=
  let cohesions := (w.organisms.filter (·.alive)).filterMap fun o =>
    let positions := (w.agents.filter fun a => a.organism_id == o.id).map (·.position)
    if positions.length < 2 then none
    else some (pairDistSum env w.config.world_size positions /
      ((positions.length * (positions.length - 1) / 2 : ℕ) : ℚ))
  if cohesions.isEmpty then 0 else cohesions.sum / (cohesions.length : ℚ)

/-- `World::collect_step_metrics`, from `world/metrics.rs`: aggregates over
alive organisms (max-1 denominators), internal-state statistics over agents
of alive organisms, diversity and cohesion, and the per-step counters. -/
def collectStepMetrics (env : Env) (w : World) (stepN : ℕ) : StepMetrics :=
  let aliveOrgs := w.organisms.filter (·.alive)
  let alive := aliveOrgs.length
  let denom : ℚ := (max alive 1 : ℕ)
  let energies := aliveOrgs.map (·.metabolic_state.energy)
  let wastes := aliveOrgs.map (·.metabolic_state.waste)
  let boundaries := aliveOrgs.map (·.boundary_integrity)
  let energyMean := energies.sum / denom
  let wasteMean := wastes.sum / denom
  let boundaryMean := boundaries.sum / denom
  let aliveStates := (w.agents.filter fun a => w.orgAliveAt a.organism_id).map
    (·.internal_state)
  let isCount := aliveStates.length
  let isDenom : ℚ := (max isCount 1 : ℕ)
  let m0 := (aliveStates.map (·.s0)).sum / isDenom
  let m1 := (aliveStates.map (·.s1)).sum / isDenom
  let m2 := (aliveStates.map (·.s2)).sum / isDenom
  let m3 := (aliveStates.map (·.s3)).sum / isDenom
  let isStd := fun (proj : IState → ℚ) (m : ℚ) =>
    if isCount ≥ 2 then
      env.sqrt (((aliveStates.map proj).map fun v => (v - m) ^ 2).sum /
        ((isCount - 1 : ℕ) : ℚ))
    else 0
  { step := stepN,
    energy_mean := energyMean, waste_mean := wasteMean,
    boundary_mean := boundaryMean, alive_count := alive,
    resource_total := w.resource_field.total,
    birth_count := w.births_last_step, death_count := w.deaths_last_step,
    population_size := w.organisms.length,
    mean_generation := ((aliveOrgs.map fun o => (o.generation : ℚ)).sum) / denom,
    mean_genome_drift := ((aliveOrgs.map genomeDrift).sum) / denom,
    agent_id_exhaustion_events := w.agent_id_exhaustions_last_step,
    energy_std := stdDev env energies energyMean,
    waste_std := stdDev env wastes wasteMean,
    boundary_std := stdDev env boundaries boundaryMean,
    mean_age := ((aliveOrgs.map fun o => (o.age_steps : ℚ)).sum) / denom,
    internal_state_mean := (m0, m1, m2, m3),
    internal_state_std :=
      (isStd (·.s0) m0, isStd (·.s1) m1, isStd (·.s2) m2, isStd (·.s3) m3),
    genome_diversity := computeGenomeDiversity env w.step_index w.organisms,
    max_generation := (aliveOrgs.map (·.generation)).foldr max 0,
    maturity_mean := ((aliveOrgs.map (·.maturity)).sum) / denom,
    spatial_cohesion_mean := computeSpatialCohesion env w }

/-- `World::collect_organism_snapshots`, from `world/metrics.rs`: per alive
organism, state fields plus its freshly computed center and agent count. -/
def collectOrganismSnapshots (env : Env) (w : World) (stepN : ℕ) : SnapshotFrame :=
  let cc := computeOrganismCentersWithCounts env w
  { step := stepN,
    organisms := (enumerate w.organisms).filterMap fun p =>
      if p.2.alive then
        let center := (cc.1.getD p.1 none).getD (0, 0)
        some { stable_id := p.2.stable_id, generation := p.2.generation,
               age_steps := p.2.age_steps,
               energy := p.2.metabolic_state.energy,
               waste := p.2.metabolic_state.waste,
               boundary_integrity := p.2.boundary_integrity,
               maturity := p.2.maturity,
               center_x := center.1, center_y := center.2,
               n_agents := cc.2.getD p.1 0 }
      else none }

/-- The `for step in 1..=steps` loop of `try_run_experiment`, over the
explicit list of step numbers: advance, then push a metrics sample when the
step is a sampling step or the final one. -/
def expSteps (env : Env) (sampleEvery total : ℕ) :
    List ℕ → World → World × List StepMetrics
  | [], w => (w, [])
  | k :: ks, w =>
    let w1 := step env w
    let entry :=
      if k % sampleEvery = 0 ∨ k = total then [collectStepMetrics env w1 k] else []
    let rest := expSteps env sampleEvery total ks w1
    (rest.1, entry ++ rest.2)

/-- `World::try_run_experiment`, from `world/mod.rs`: argument checks first
(each returning with the world untouched), then the step loop, then the
summary with the lifespans and lineage events taken out of the world. -/
def tryRunExperiment (env : Env) (steps sampleEvery : ℕ) (w : World) :
    Except ExperimentError RunSummary × World :=
  if sampleEvery = 0 then (Except.error ExperimentError.invalidSampleEvery, w)
  else if steps > maxExperimentSteps then
    (Except.error (ExperimentError.tooManySteps maxExperimentSteps steps), w)
  else
    let estimated := if steps = 0 then 0 else (steps - 1) / sampleEvery + 1
    if estimated > maxExperimentSamples then
      (Except.error (ExperimentError.tooManySamples maxExperimentSamples estimated), w)
    else
      let w1 := { w with lifespans := [], lineage_events := [] }
      let birthsBefore := w1.total_births
      let r := expSteps env sampleEvery steps (List.range' 1 steps) w1
      (Except.ok
        { schema_version := 1, steps := steps, sample_every := sampleEvery,
          final_alive_count := r.1.aliveCount, samples := r.2,
          lifespans := r.1.lifespans,
          total_reproduction_events := r.1.total_births - birthsBefore,
          lineage_events := r.1.lineage_events, organism_snapshots := [] },
       { r.1 with lifespans := [], lineage_events := [] })

/-- The loop of `try_run_experiment_with_snapshots`: like `expSteps` but also
collecting a snapshot frame at each requested step. -/
def expStepsSnap (env : Env) (sampleEvery total : ℕ) (snapAt : List ℕ) :
    List ℕ → World → World × List StepMetrics × List SnapshotFrame
  | [], w => (w, [], [])
  | k :: ks, w =>
    let w1 := step env w
    let entry :=
      if k % sampleEvery = 0 ∨ k = total then [collectStepMetrics env w1 k] else []
    let snap := if snapAt.contains k then [collectOrganismSnapshots env w1 k] else []
    let rest := expStepsSnap env sampleEvery total snapAt ks w1
    (rest.1, entry ++ rest.2.1, snap ++ rest.2.2)

/-- `World::try_run_experiment_with_snapshots`, from `world/mod.rs`. -/
def tryRunExperimentWithSnapshots (env : Env) (steps sampleEvery : ℕ)
    (snapAt : List ℕ) (w : World) : Except ExperimentError RunSummary × World :=
  if sampleEvery = 0 then (Except.error ExperimentError.invalidSampleEvery, w)
  else if steps > maxExperimentSteps then
    (Except.error (ExperimentError.tooManySteps maxExperimentSteps steps), w)
  else
    let estimated := if steps = 0 then 0 else (steps - 1) / sampleEvery + 1
    if estimated > maxExperimentSamples then
      (Except.error (ExperimentError.tooManySamples maxExperimentSamples estimated), w)
    else
      let w1 := { w with lifespans := [], lineage_events := [] }
      let birthsBefore := w1.total_births
      let r := expStepsSnap env sampleEvery steps snapAt (List.range' 1 steps) w1
      (Except.ok
        { schema_version := 1, steps := steps, sample_every := sampleEvery,
          final_alive_count := r.1.aliveCount, samples := r.2.1,
          lifespans := r.1.lifespans,
          total_reproduction_events := r.1.total_births - birthsBefore,
          lineage_events := r.1.lineage_events, organism_snapshots := r.2.2 },
       { r.1 with lifespans := [], lineage_events := [] })

/-!
Concrete instances used by witnesses and counterexamples. The environment
`zeroEnv` fixes every abstract primitive to a simple value; each concrete
scenario below only ever calls the primitives on arguments where the chosen
value agrees with the float semantics of the source (for example `tanh` is
only applied to 0 because every network weight involved is 0), so evaluating
the model under `zeroEnv` reproduces the run of the source bit for bit.
-/

/-- Environment with every primitive constant: `tanh = sin = cos = sqrt =
atan2 = 0`, `pi = 0`, a constant-zero RNG stream, a 10000-agent cap, cap 5
resource cells, zero default metabolic state, an identity metabolism engine
consuming nothing, and a trivial developmental program. -/
def zeroEnv : Env :=
  { tanh := fun _ => 0, sin := fun _ => 0, cos := fun _ => 0,
    sqrt := fun _ => 0, atan2 := fun _ _ => 0, pi := 0,
    prng := fun _ _ => 0, maxTotalAgents := 10000, resourceCap := 5,
    defaultEnergy := 0, defaultWaste := 0,
    metabStep := fun _ _ st _ _ => (st, 0),
    devModifier := fun _ => 1,
    devStage := fun _ _ => ⟨1, 1, 1⟩ }

/-- All-zero network. -/
def zeroNn : NeuralNet ℚ :=
  ⟨fun _ _ => 0, fun _ => 0, fun _ _ => 0, fun _ => 0⟩

/-- Unwrap a world-construction result, falling back to a given world. -/
def worldOfExcept (e : Except WorldInitError World) (d : World) : World :=
  match e with
  | Except.ok w => w
  | Except.error _ => d

/-- Minimal valid configuration for an empty world. -/
def tinyConfig : SimConfig :=
  { world_size := 4, num_organisms := 0, agents_per_organism := 1, seed := 0,
    dt := 1, sensing_radius := 1, max_speed := 1, neighbor_norm := 1,
    homeostasis_decay_rate := 0, metabolism_mode := MetabolismMode.Toy,
    metabolism_efficiency_multiplier := 1, metabolic_viability_floor := 0,
    death_energy_threshold := 0, death_boundary_threshold := 0,
    boundary_collapse_threshold := 0, boundary_decay_base_rate := 0,
    boundary_decay_energy_scale := 0, boundary_waste_pressure_scale := 0,
    boundary_repair_rate := 0, boundary_repair_waste_penalty_scale := 0,
    growth_maturation_steps := 1, growth_immature_metabolic_efficiency := 1,
    crowding_neighbor_threshold := 1, crowding_boundary_decay := 0,
    reproduction_min_energy := 0, reproduction_min_boundary := 0,
    reproduction_energy_cost := 0, reproduction_spawn_radius := 1,
    reproduction_child_min_agents := 1,
    mutation_point_rate := 0, mutation_point_scale := 0,
    mutation_reset_rate := 0, mutation_scale_rate := 0,
    mutation_scale_min := 1, mutation_scale_max := 1, mutation_value_limit := 2,
    max_organism_age_steps := 1000, compaction_interval_steps := 1,
    resource_regeneration_rate := 0, environment_shift_step := 0,
    environment_shift_resource_rate := 0, environment_cycle_period := 0,
    environment_cycle_low_rate := 0,
    enable_response := false, enable_homeostasis := false,
    enable_boundary_maintenance := false, enable_metabolism := false,
    enable_growth := false, enable_reproduction := false,
    enable_evolution := false, enable_sham_process := false }

/-- Fallback world (never reached by the concrete constructions below). -/
def dummyWorld : World :=
  { agents := [], organisms := [], config := tinyConfig,
    metabolism := MetabolismMode.Toy, resource_field := ⟨1, 1, 1, [0]⟩,
    org_toroidal_sums := [], org_counts := [], rng := ⟨0, 0⟩,
    next_agent_id := 0, step_index := 0, births_last_step := 0,
    deaths_last_step := 0, total_births := 0, total_deaths := 0,
    mutation_rates := mutationRatesFromConfig tinyConfig,
    next_organism_stable_id := 0, agent_id_exhaustions_last_step := 0,
    total_agent_id_exhaustions := 0, lifespans := [], lineage_events := [],
    current_resource_rate := 0 }

/-- The empty founder world built through `try_new`. -/
def tinyWorld : World := worldOfExcept (tryNew zeroEnv [] [] tinyConfig) dummyWorld

/-- Configuration of the death-step scenario: nine one-agent organisms,
boundary maintenance and metabolism off, crowding lethal (threshold 1/2 with
decay 10 at `dt = 1`), compaction interval 7. -/
def c3Config : SimConfig :=
  { tinyConfig with
    world_size := 100, num_organisms := 9, agents_per_organism := 1, seed := 7,
    sensing_radius := 5, max_speed := 2, neighbor_norm := 50,
    crowding_neighbor_threshold := 1 / 2, crowding_boundary_decay := 10,
    compaction_interval_steps := 7 }

/-- Nine agents, one per organism: agents 0 and 1 are within sensing range of
each other (distance 1 < 5), every other pairwise toroidal distance exceeds
the radius; every agent starts with velocity `(1, 0)`. -/
def c3Agents : List Agent :=
  (List.range 9).map fun i =>
    { id := i, organism_id := i,
      position := if i = 0 then (0, 0) else if i = 1 then (1, 0)
        else ((10 * i : ℕ), (10 * i : ℕ)),
      velocity := (1, 0), internal_state := ⟨0, 0, 0, 0⟩ }

/-- Nine all-zero founder networks. -/
def c3Nns : List (NeuralNet ℚ) := List.replicate 9 zeroNn

/-- The founder world of the death-step scenario, built through `try_new`. -/
def c3World : World :=
  worldOfExcept (tryNew zeroEnv c3Agents c3Nns c3Config) dummyWorld

/-- A two-organism world for the compaction witness: organism 0 dead (its
agent 0 to be dropped), organism 1 alive with agent 1. -/
def c2Organisms : List OrganismRuntime :=
  [{ id := 0, stable_id := 0, generation := 0, age_steps := 5, alive := false,
     boundary_integrity := 0, metabolic_state := ⟨1, 2⟩,
     genome := Genome.withNnWeights [3], ancestor_genome := Genome.withNnWeights [3],
     nn := zeroNn, agent_ids := [0], maturity := 1, metabolism_engine := none,
     developmental_program := ⟨[]⟩, parent_stable_id := none },
   { id := 1, stable_id := 1, generation := 2, age_steps := 9, alive := true,
     boundary_integrity := 3 / 4, metabolic_state := ⟨5, 6⟩,
     genome := Genome.withNnWeights [7], ancestor_genome := Genome.withNnWeights [8],
     nn := zeroNn, agent_ids := [1], maturity := 1 / 2,
     metabolism_engine := some [9], developmental_program := ⟨[10]⟩,
     parent_stable_id := some 0 }]

/-- The compaction-witness world. -/
def c2World : World :=
  { dummyWorld with
    agents :=
      [{ id := 0, organism_id := 0, position := (1, 1), velocity := (0, 0),
         internal_state := ⟨0, 0, 0, 0⟩ },
       { id := 1, organism_id := 1, position := (2, 2), velocity := (1, 0),
         internal_state := ⟨1, 0, 1, 0⟩ }],
    organisms := c2Organisms,
    org_toroidal_sums := [⟨0, 0, 0, 0⟩, ⟨1, 1, 1, 1⟩],
    org_counts := [1, 1],
    next_agent_id := 2, next_organism_stable_id := 2 }

/-- Configuration of the id-exhaustion scenario: `child_agents =
max(4 / 2, 2) = 2`. -/
def c9Config : SimConfig :=
  { tinyConfig with
    num_organisms := 1, agents_per_organism := 4,
    reproduction_child_min_agents := 2 }

/-- One eligible parent and one free agent id (`next_agent_id = u32::MAX - 1`):
allocating the two child agent ids would exhaust the id space, yet the
source's `remaining + 1 < child_agents` check lets reproduction proceed. -/
def c9World : World :=
  { dummyWorld with
    config := c9Config,
    organisms :=
      [{ id := 0, stable_id := 0, generation := 0, age_steps := 0, alive := true,
         boundary_integrity := 1, metabolic_state := ⟨1, 0⟩,
         genome := Genome.withNnWeights (List.replicate 212 0),
         ancestor_genome := Genome.withNnWeights (List.replicate 212 0),
         nn := zeroNn, agent_ids := [], maturity := 1, metabolism_engine := none,
         developmental_program := ⟨[]⟩, parent_stable_id := none }],
    org_toroidal_sums := [⟨0, 0, 0, 0⟩], org_counts := [0],
    next_agent_id := u32Max - 1, next_organism_stable_id := 1 }

/-- The same scenario with the id space fully exhausted
(`next_agent_id = u32::MAX`), where the source does record the event. -/
def c9bWorld : World := { c9World with next_agent_id := u32Max }

/-- Mutation rates with all three probabilities zero and value limit 2. -/
def c7Rates : MutationRates :=
  { point_rate := 0, point_scale := 0, reset_rate := 0, scale_rate := 0,
    scale_min := 1, scale_max := 1, value_limit := 2 }

/-- The clamped-field witness of the resource-field claim: a 2×2 grid
(`world_size = 2`, `cell_size = 1`) with cell `(1, 0)` set to 1. -/
def c4Field : ResourceField := (ResourceField.new 2 1 0).set 1 0 1

/-- The 212-weight vector with a single 1 at position 136 (over `ℝ`, where
`tanh` is the genuine hyperbolic tangent). -/
def wc5 : List ℝ := List.replicate 136 0 ++ 1 :: List.replicate 75 0

/-- The 212-weight vector with a single 1 at position 208, the actual first
output bias. -/
def wd5 : List ℝ := List.replicate 208 0 ++ 1 :: List.replicate 3 0

/-- New compacted index of the organism at old index `i`: the number of
surviving organisms before it. -/
def aliveRank (w : World) (i : ℕ) : ℕ :=
  ((w.organisms.take i).filter (·.alive)).length

/-- Every organism field except the rewritten array id and the rebuilt
`agent_ids` coincides — the claim's "stable_id, ancestor_genome, generation,
and remaining fields bit-for-bit". -/
def orgPreserved (o o' : OrganismRuntime) : Prop :=
  o'.stable_id = o.stable_id ∧ o'.ancestor_genome = o.ancestor_genome ∧
  o'.generation = o.generation ∧ o'.age_steps = o.age_steps ∧
  o'.alive = o.alive ∧ o'.boundary_integrity = o.boundary_integrity ∧
  o'.metabolic_state = o.metabolic_state ∧ o'.genome = o.genome ∧
  o'.nn = o.nn ∧ o'.maturity = o.maturity ∧
  o'.metabolism_engine = o.metabolism_engine ∧
  o'.developmental_program = o.developmental_program ∧
  o'.parent_stable_id = o.parent_stable_id

/-- Specification of compaction: survivor count, per-survivor field
preservation with the rewritten consecutive id and the rebuilt `agent_ids`,
and the agent array as a filter of survivors' agents with `organism_id`
rewritten to the survivor's new index. -/
def pruneSpec (w : World) : Prop :=
  (pruneDeadEntities w).organisms.length = (w.organisms.filter (·.alive)).length ∧
  (∀ k, k < (w.organisms.filter (·.alive)).length →
    orgPreserved ((w.organisms.filter (·.alive)).getD k dummyOrganism)
      ((pruneDeadEntities w).organisms.getD k dummyOrganism) ∧
    ((pruneDeadEntities w).organisms.getD k dummyOrganism).id = k ∧
    ((pruneDeadEntities w).organisms.getD k dummyOrganism).agent_ids =
      (((pruneDeadEntities w).agents.filter fun a =>
        a.organism_id = k).map (·.id))) ∧
  (pruneDeadEntities w).agents =
    (w.agents.filter fun a => w.orgAliveAt a.organism_id).map
      (fun a => { a with organism_id := aliveRank w a.organism_id })

/-- Agent-allocation tracking between two worlds: the allocator only grows
and stays at or below `u32::MAX`, and every agent of the later world either
already existed or carries a fresh id below `u32::MAX`. -/
def TracksAgents (w w' : World) : Prop :=
  w.next_agent_id ≤ w'.next_agent_id ∧ w'.next_agent_id ≤ u32Max ∧
  ∀ a ∈ w'.agents, a ∈ w.agents ∨ (w.next_agent_id ≤ a.id ∧ a.id < u32Max)

/-- One organism record descending from another within a step: the stable id
is kept, a live descendant was already alive (no resurrection), and a dead
descendant either had its boundary zeroed or was already dead with the
boundary untouched. -/
def OrgDescends (o o' : OrganismRuntime) : Prop :=
  o.stable_id = o'.stable_id ∧ (o'.alive = true → o.alive = true) ∧
  (o'.alive = false →
    o'.boundary_integrity = 0 ∨
    (o.alive = false ∧ o'.boundary_integrity = o.boundary_integrity))

/-- Organism tracking between two worlds: the stable-id counter only grows,
and every organism of the later world either descends from an earlier one or
carries a freshly allocated stable id (and, if dead, a zero boundary). -/
def OrgTrack (w w' : World) : Prop :=
  w.next_organism_stable_id ≤ w'.next_organism_stable_id ∧
  ∀ o' ∈ w'.organisms,
    (∃ o ∈ w.organisms, OrgDescends o o') ∨
    (w.next_organism_stable_id ≤ o'.stable_id ∧
      (o'.alive = false → o'.boundary_integrity = 0))

/-- Velocity soundness of a mid-step world against the pre-step world `w`:
every agent is at rest, or carries the id of a pre-step agent of a then-live
organism, or carries a freshly allocated id. -/
def VelOk (w w' : World) : Prop :=
  w.next_agent_id ≤ w'.next_agent_id ∧ w'.next_agent_id ≤ u32Max ∧
  ∀ b ∈ w'.agents,
    b.velocity = (0, 0) ∨
    (∃ a ∈ w.agents, a.id = b.id ∧ w.orgAliveAt a.organism_id = true) ∨
    w.next_agent_id ≤ b.id

/-- Agent carrying between two mid-step worlds: each agent of the later
world is an earlier agent with at most its organism index rewritten (same id
and velocity), or fresh. -/
def AgentsCarry (w1 w2 : World) : Prop :=
  w1.next_agent_id ≤ w2.next_agent_id ∧ w2.next_agent_id ≤ u32Max ∧
  ∀ b ∈ w2.agents,
    (∃ a ∈ w1.agents, a.id = b.id ∧ a.velocity = b.velocity) ∨
    w1.next_agent_id ≤ b.id

/-!
Theorems. Claim theorems are named `cN_...`; the remaining lemmas are shared
infrastructure.
-/

/-- Any element taken from past the weight prefix of a freshly built genome
is zero. -/
theorem mem_drop_past (w : List ℚ) (off n : ℕ) (h : w.length ≤ off) (x : ℚ)
    (hx : x ∈ List.take n (List.drop off (w ++ List.replicate 44 (0 : ℚ)))) :
    x = 0 := by
  obtain ⟨c, rfl⟩ := Nat.exists_eq_add_of_le h
  rw [← List.drop_drop, List.drop_left, List.drop_replicate] at hx
  exact List.eq_of_mem_replicate (List.mem_of_mem_take hx)

/-- C6: `with_nn_weights(w)` yields a genome of length `|w| + 44` whose
segment 0 is `w` and whose six other segments are zero-filled; for
`|w| = 212` the segment table is `(0,212), (212,16), (228,8), (236,8),
(244,4), (248,4), (252,4)` with total length 256. -/
theorem c6_with_nn_weights_layout (w : List ℚ) :
    (Genome.withNnWeights w).data.length = w.length + 44 ∧
    (Genome.withNnWeights w).segmentData 0 = w ∧
    (∀ i, 1 ≤ i → i ≤ 6 → ∀ x ∈ (Genome.withNnWeights w).segmentData i, x = 0) ∧
    (w.length = 212 →
      (Genome.withNnWeights w).segments =
        [(0, 212), (212, 16), (228, 8), (236, 8), (244, 4), (248, 4), (252, 4)] ∧
      (Genome.withNnWeights w).data.length = 256) := by
  refine ⟨?_, ?_, ?_, ?_⟩
  · simp [Genome.withNnWeights, placeholderSizes]
  · simp only [Genome.segmentData, Genome.withNnWeights, List.getD_cons_zero,
      List.drop_zero]
    exact List.take_left w _
  · intro i h1 h2 x hx
    interval_cases i <;>
    · simp [Genome.segmentData, Genome.withNnWeights, segOffsets,
        placeholderSizes, List.sum_cons, List.sum_nil] at hx
      first
        | exact hx
        | exact mem_drop_past w _ _ (by omega) x hx
  · intro h212
    constructor
    · simp [Genome.withNnWeights, segOffsets, placeholderSizes, h212]
    · simp [Genome.withNnWeights, placeholderSizes, h212]

/-- C6 witness: the 212-zero genome realizes the claimed layout. -/
theorem c6_with_nn_weights_layout_witness :
    (List.replicate 212 (0 : ℚ)).length = 212 ∧
    (Genome.withNnWeights (List.replicate 212 (0 : ℚ))).segments =
      [(0, 212), (212, 16), (228, 8), (236, 8), (244, 4), (248, 4), (252, 4)] ∧
    (Genome.withNnWeights (List.replicate 212 (0 : ℚ))).data.length = 256 := by
  refine ⟨List.length_replicate 212 0, ?_, ?_⟩
  · exact ((c6_with_nn_weights_layout (List.replicate 212 0)).2.2.2
      (List.length_replicate 212 0)).1
  · exact ((c6_with_nn_weights_layout (List.replicate 212 0)).2.2.2
      (List.length_replicate 212 0)).2

/-- Clamping into a nonempty interval lands inside it. -/
theorem clampQ_mem (x lo hi : ℚ) (h : lo ≤ hi) :
    lo ≤ clampQ x lo hi ∧ clampQ x lo hi ≤ hi :=
  ⟨le_max_left lo _, max_le h (min_le_right x hi)⟩

/-- The mutation pass preserves the value bound elementwise: each element is
either clamped into the interval, reset to 0 (inside the interval because the
element itself witnesses it nonempty), or left unchanged. -/
theorem mutateData_bound (env : Env) (rates : MutationRates) :
    ∀ (l : List ℚ) (g : Rng),
      (∀ v ∈ l, -rates.value_limit ≤ v ∧ v ≤ rates.value_limit) →
      ∀ v ∈ (mutateData env rates l g).1,
        -rates.value_limit ≤ v ∧ v ≤ rates.value_limit := by
  intro l
  induction l with
  | nil => intro g _ v hv; simp [mutateData] at hv
  | cons x xs ih =>
    intro g h0 v hv
    obtain ⟨hx1, hx2⟩ := h0 x (List.mem_cons_self x xs)
    have hLL : -rates.value_limit ≤ rates.value_limit := le_trans hx1 hx2
    have h0x : 0 ≤ rates.value_limit := by linarith
    have htail : ∀ v ∈ xs, -rates.value_limit ≤ v ∧ v ≤ rates.value_limit :=
      fun v hv => h0 v (List.mem_cons_of_mem x hv)
    simp only [mutateData] at hv
    split_ifs at hv with h1 h2 h3 <;> simp only [List.mem_cons] at hv
    · rcases hv with rfl | hv
      · exact clampQ_mem _ _ _ hLL
      · exact ih _ htail v hv
    · rcases hv with rfl | hv
      · exact ⟨by linarith, h0x⟩
      · exact ih _ htail v hv
    · rcases hv with rfl | hv
      · exact clampQ_mem _ _ _ hLL
      · exact ih _ htail v hv
    · rcases hv with rfl | hv
      · exact ⟨hx1, hx2⟩
      · exact ih _ htail v hv

/-- C7 counterexample: with all three mutation probabilities zero (sum ≤ 1 as
the claim requires) and value limit 2, mutating a genome holding the value 5
leaves 5 in place, outside `[-2, 2]`: untouched elements are never clamped. -/
theorem c7_counterexample :
    c7Rates.point_rate + c7Rates.reset_rate + c7Rates.scale_rate ≤ 1 ∧
    ¬ (∀ v ∈ ((Genome.withNnWeights [5]).mutate zeroEnv ⟨0, 0⟩ c7Rates).1.data,
        -c7Rates.value_limit ≤ v ∧ v ≤ c7Rates.value_limit) := by
  constructor
  · exact of_decide_eq_true (by with_unfolding_all rfl)
  · exact of_decide_eq_true (by with_unfolding_all rfl)

/-- C7 (amended): one `mutate` call keeps every genome value in
`[-value_limit, value_limit]` provided every value lies there beforehand
(each element is clamped, reset to 0, or left unchanged — so pre-existing
out-of-range values survive, which is what the counterexample exhibits). -/
theorem c7_mutate_preserves_bounds (env : Env) (rates : MutationRates)
    (g : Genome) (rng : Rng)
    (_hsum : rates.point_rate + rates.reset_rate + rates.scale_rate ≤ 1)
    (h0 : ∀ v ∈ g.data, -rates.value_limit ≤ v ∧ v ≤ rates.value_limit) :
    ∀ v ∈ (g.mutate env rng rates).1.data,
      -rates.value_limit ≤ v ∧ v ≤ rates.value_limit :=
  mutateData_bound env rates g.data rng h0

/-- C7 witness: a genome holding 1 under zero rates stays inside `[-2, 2]`. -/
theorem c7_mutate_preserves_bounds_witness :
    (c7Rates.point_rate + c7Rates.reset_rate + c7Rates.scale_rate ≤ 1) ∧
    (∀ v ∈ (Genome.withNnWeights [1]).data,
      -c7Rates.value_limit ≤ v ∧ v ≤ c7Rates.value_limit) ∧
    (∀ v ∈ ((Genome.withNnWeights [1]).mutate zeroEnv ⟨0, 0⟩ c7Rates).1.data,
      -c7Rates.value_limit ≤ v ∧ v ≤ c7Rates.value_limit) :=
  ⟨of_decide_eq_true (by with_unfolding_all rfl),
    of_decide_eq_true (by with_unfolding_all rfl),
    c7_mutate_preserves_bounds zeroEnv c7Rates _ _
      (of_decide_eq_true (by with_unfolding_all rfl))
      (of_decide_eq_true (by with_unfolding_all rfl))⟩

/-- C4 counterexample: `get` clamps rather than wraps. On the 2×2 field with
`world_size = 2` and only cell `(1, 0)` nonzero, the coordinate `x = 2` wraps
to 0 (`2 mod 2 = 0`) but `get 2 0` reads the clamped border cell `(1, 0)`,
differing from `get 0 0`. -/
theorem c4_counterexample :
    qmod 2 2 = 0 ∧ c4Field.get 2 0 ≠ c4Field.get 0 0 := by
  constructor
  · exact of_decide_eq_true (by with_unfolding_all rfl)
  · exact of_decide_eq_true (by with_unfolding_all rfl)

/-- C4 (amended): `ResourceField::get` does not wrap: the cell index is the
truncated `x / cell_size` clamped into `[0, width - 1]`. For coordinates whose
cell index is in range this reads the containing cell with no wrapping; a
coordinate at or beyond the grid edge is clamped to the border index, so
`get(x, y) = get(x mod world_size, y mod world_size)` fails in general. -/
theorem c4_get_clamps (f : ResourceField) (x y : ℚ) :
    (usizeCast (x / f.cell_size) < f.width →
      usizeCast (y / f.cell_size) < f.height →
      f.get x y = f.data.getD
        (usizeCast (y / f.cell_size) * f.width + usizeCast (x / f.cell_size)) 0) ∧
    (f.width ≤ usizeCast (x / f.cell_size) → f.cellX x = f.width - 1) := by
  constructor
  · intro hx hy
    unfold ResourceField.get ResourceField.cellX ResourceField.cellY
    rw [min_eq_left (by omega), min_eq_left (by omega)]
  · intro hx
    unfold ResourceField.cellX
    omega

/-- C4 witness: on the concrete 2×2 field, `(1, 0)` is in range and read
without clamping, and `x = 5/2` clamps to the border column. -/
theorem c4_get_clamps_witness :
    (usizeCast ((1 : ℚ) / c4Field.cell_size) < c4Field.width) ∧
    (usizeCast ((0 : ℚ) / c4Field.cell_size) < c4Field.height) ∧
    c4Field.get 1 0 = c4Field.data.getD
      (usizeCast ((0 : ℚ) / c4Field.cell_size) * c4Field.width +
        usizeCast ((1 : ℚ) / c4Field.cell_size)) 0 ∧
    (c4Field.width ≤ usizeCast ((5 / 2 : ℚ) / c4Field.cell_size)) ∧
    c4Field.cellX (5 / 2) = c4Field.width - 1 := by
  have h1 : usizeCast ((1 : ℚ) / c4Field.cell_size) < c4Field.width :=
    of_decide_eq_true (by with_unfolding_all rfl)
  have h2 : usizeCast ((0 : ℚ) / c4Field.cell_size) < c4Field.height :=
    of_decide_eq_true (by with_unfolding_all rfl)
  have h3 : c4Field.width ≤ usizeCast ((5 / 2 : ℚ) / c4Field.cell_size) :=
    of_decide_eq_true (by with_unfolding_all rfl)
  exact ⟨h1, h2, (c4_get_clamps c4Field 1 0).1 h1 h2,
    h3, (c4_get_clamps c4Field (5 / 2) 0).2 h3⟩

/-- Reading a replicated list inside its range. -/
theorem getD_replicate_of_lt {α : Type} (m n : ℕ) (c d : α) (h : n < m) :
    (List.replicate m c).getD n d = c := by
  simp [List.getD, List.getElem?_replicate, h]

/-- Reading the weight vector `wc5` below position 136 yields 0. -/
theorem wc5_getD_lt (n : ℕ) (h : n < 136) : wc5.getD n 0 = 0 := by
  unfold wc5
  rw [List.getD_append _ _ _ _ (by rw [List.length_replicate]; omega)]
  exact getD_replicate_of_lt _ _ _ _ h

/-- Position 136 of `wc5` holds the 1. -/
theorem wc5_getD_136 : wc5.getD 136 0 = 1 := by
  unfold wc5
  rw [List.getD_append_right _ _ _ _ (by rw [List.length_replicate])]
  rw [List.length_replicate, Nat.sub_self, List.getD_cons_zero]

/-- Reading `wc5` above position 136 (below 212) yields 0. -/
theorem wc5_getD_gt (n : ℕ) (h1 : 136 < n) (h2 : n < 212) : wc5.getD n 0 = 0 := by
  unfold wc5
  rw [List.getD_append_right _ _ _ _ (by rw [List.length_replicate]; omega)]
  rw [List.length_replicate]
  rw [show n - 136 = (n - 137) + 1 from by omega, List.getD_cons_succ]
  exact getD_replicate_of_lt _ _ _ _ (by omega)

/-- Reading the weight vector `wd5` below position 208 yields 0. -/
theorem wd5_getD_lt (n : ℕ) (h : n < 208) : wd5.getD n 0 = 0 := by
  unfold wd5
  rw [List.getD_append _ _ _ _ (by rw [List.length_replicate]; omega)]
  exact getD_replicate_of_lt _ _ _ _ h

/-- Position 208 of `wd5` holds the 1. -/
theorem wd5_getD_208 : wd5.getD 208 0 = 1 := by
  unfold wd5
  rw [List.getD_append_right _ _ _ _ (by rw [List.length_replicate])]
  rw [List.length_replicate, Nat.sub_self, List.getD_cons_zero]

/-- On the all-zero input, `forward` evaluates to the closed form in the
output-bias and hidden-bias entries of the weight list. -/
theorem forward_zero_input (w : List ℝ) (j : Fin 4) :
    NeuralNet.forward Real.tanh (NeuralNet.fromWeights w) (fun _ => 0) j =
      Real.tanh (w.getD (208 + (j : ℕ)) 0 +
        ∑ i : Fin 16, Real.tanh (w.getD (128 + (i : ℕ)) 0) *
          w.getD (144 + 4 * (i : ℕ) + (j : ℕ)) 0) := by
  simp [NeuralNet.forward, NeuralNet.fromWeights]

/-- C5 counterexample: decoding the 212-vector with the single 1 at position
136 and running `forward` on the zero input yields first output 0, not
`tanh 1` — position 136 is a hidden bias (128 + 8), not the first output
bias (208). -/
theorem c5_counterexample :
    NeuralNet.forward Real.tanh (NeuralNet.fromWeights wc5) (fun _ => 0) 0 = 0 ∧
    Real.tanh 1 ≠ 0 := by
  constructor
  · rw [forward_zero_input]
    rw [Finset.sum_eq_zero fun i _ => by
      rw [wc5_getD_gt (144 + 4 * (i : ℕ) + ((0 : Fin 4) : ℕ))
        (by have := i.isLt; omega) (by have := i.isLt; omega)]
      exact mul_zero _]
    rw [wc5_getD_gt (208 + ((0 : Fin 4) : ℕ)) (by omega) (by omega)]
    rw [add_zero, Real.tanh_zero]
  · rw [Real.tanh_eq_sinh_div_cosh]
    exact ne_of_gt (div_pos (by positivity) (Real.cosh_pos 1))

/-- C5 (amended): in the decode layout position 136 is hidden bias number 8
(output biases sit at 208-211), so `forward([0; 8])` on the position-136
vector returns all zeros; placing the 1 at position 208 — the actual first
output bias — makes the first output `tanh 1`. -/
theorem c5_weight_layout :
    (NeuralNet.fromWeights wc5).b_h 8 = 1 ∧
    (∀ j : Fin 4,
      NeuralNet.forward Real.tanh (NeuralNet.fromWeights wc5) (fun _ => 0) j = 0) ∧
    (NeuralNet.fromWeights wd5).b_o 0 = 1 ∧
    NeuralNet.forward Real.tanh (NeuralNet.fromWeights wd5) (fun _ => 0) 0 =
      Real.tanh 1 := by
  refine ⟨?_, ?_, ?_, ?_⟩
  · show wc5.getD (128 + ((8 : Fin 16) : ℕ)) 0 = 1
    rw [show 128 + ((8 : Fin 16) : ℕ) = 136 from rfl]
    exact wc5_getD_136
  · intro j
    rw [forward_zero_input]
    rw [Finset.sum_eq_zero fun i _ => by
      rw [wc5_getD_gt (144 + 4 * (i : ℕ) + (j : ℕ))
        (by have := i.isLt; have := j.isLt; omega)
        (by have := i.isLt; have := j.isLt; omega)]
      exact mul_zero _]
    rw [wc5_getD_gt (208 + (j : ℕ)) (by have := j.isLt; omega)
      (by have := j.isLt; omega)]
    rw [add_zero, Real.tanh_zero]
  · show wd5.getD (208 + ((0 : Fin 4) : ℕ)) 0 = 1
    rw [show 208 + ((0 : Fin 4) : ℕ) = 208 from rfl]
    exact wd5_getD_208
  · rw [forward_zero_input]
    rw [Finset.sum_eq_zero fun i _ => by
      rw [wd5_getD_lt (144 + 4 * (i : ℕ) + ((0 : Fin 4) : ℕ))
        (by have := i.isLt; omega)]
      exact mul_zero _]
    rw [show (208 + ((0 : Fin 4) : ℕ)) = 208 from rfl, wd5_getD_208, add_zero]

/-- `updateNth` preserves length. -/
theorem updateNth_length {α : Type} (l : List α) (n : ℕ) (f : α → α) :
    (updateNth l n f).length = l.length := by
  induction l generalizing n with
  | nil => rfl
  | cons a as ih =>
    cases n with
    | zero => rfl
    | succ n => simp [updateNth, ih]

/-- Reading the updated position. -/
theorem getD_updateNth_self {α : Type} (l : List α) (n : ℕ) (f : α → α) (d : α)
    (h : n < l.length) : (updateNth l n f).getD n d = f (l.getD n d) := by
  induction l generalizing n with
  | nil => simp at h
  | cons a as ih =>
    cases n with
    | zero => rfl
    | succ n =>
      simp only [updateNth, List.getD_cons_succ]
      exact ih n (by simpa using h)

/-- Reading an untouched position. -/
theorem getD_updateNth_ne {α : Type} (l : List α) (n m : ℕ) (f : α → α) (d : α)
    (h : m ≠ n) : (updateNth l n f).getD m d = l.getD m d := by
  induction l generalizing n m with
  | nil => rfl
  | cons a as ih =>
    cases n with
    | zero =>
      cases m with
      | zero => exact absurd rfl h
      | succ m => simp [updateNth, List.getD_cons_succ]
    | succ n =>
      cases m with
      | zero => rfl
      | succ m =>
        simp only [updateNth, List.getD_cons_succ]
        exact ih n m (fun e => h (by rw [e]))

/-- `updateNth` out of range is the identity. -/
theorem updateNth_oob {α : Type} (l : List α) (n : ℕ) (f : α → α)
    (h : l.length ≤ n) : updateNth l n f = l := by
  induction l generalizing n with
  | nil => rfl
  | cons a as ih =>
    cases n with
    | zero => simp at h
    | succ n => simp [updateNth, ih n (by simpa using h)]

/-- `pushAgentIds` preserves the organism count. -/
theorem pushAgentIds_length (agents : List Agent) :
    ∀ orgs : List OrganismRuntime, (pushAgentIds orgs agents).length = orgs.length := by
  induction agents with
  | nil => intro orgs; rfl
  | cons a as ih =>
    intro orgs
    show (pushAgentIds (updateNth orgs a.organism_id _) as).length = _
    rw [ih, updateNth_length]

/-- `pushAgentIds` appends, in agent order, the ids of the agents owned by
each organism, and changes nothing else. -/
theorem pushAgentIds_getD (agents : List Agent) :
    ∀ (orgs : List OrganismRuntime) (i : ℕ), i < orgs.length →
      (pushAgentIds orgs agents).getD i dummyOrganism =
        { orgs.getD i dummyOrganism with
          agent_ids := (orgs.getD i dummyOrganism).agent_ids ++
            ((agents.filter fun a => a.organism_id = i).map (·.id)) } := by
  induction agents with
  | nil => intro orgs i hi; simp [pushAgentIds]
  | cons a as ih =>
    intro orgs i hi
    show (pushAgentIds (updateNth orgs a.organism_id _) as).getD i dummyOrganism = _
    rw [ih _ i (by rw [updateNth_length]; exact hi)]
    by_cases hai : a.organism_id = i
    · subst hai
      rw [getD_updateNth_self _ _ _ _ hi]
      simp [List.filter_cons, List.append_assoc]
    · rw [getD_updateNth_ne _ _ _ _ _ (fun e => hai e.symm)]
      simp [List.filter_cons, hai]

/-- The remap table of `prune_dead_entities`: survivors map to their rank
among survivors (offset by the running counter), the dead to `none`. -/
theorem buildRemap_fst_getD (l : List OrganismRuntime) :
    ∀ (k i : ℕ),
      (buildRemap l k).1.getD i none =
        if i < l.length then
          (if (l.getD i dummyOrganism).alive then
            some (k + ((l.take i).filter (·.alive)).length) else none)
        else none := by
  induction l with
  | nil => intro k i; simp [buildRemap]
  | cons o os ih =>
    intro k i
    by_cases ho : o.alive
    · have hstep : (buildRemap (o :: os) k).1 = some k :: (buildRemap os (k + 1)).1 := by
        simp [buildRemap, ho]
      rw [hstep]
      cases i with
      | zero => simp [ho]
      | succ i =>
        rw [List.getD_cons_succ, ih (k + 1) i]
        simp only [List.getD_cons_succ, List.length_cons, Nat.add_lt_add_iff_right,
          List.take_succ_cons, List.filter_cons, ho]
        split_ifs <;>
          first
            | rfl
            | contradiction
            | (simp only [Option.some.injEq, List.length_cons]; omega)
    · have hstep : (buildRemap (o :: os) k).1 = none :: (buildRemap os k).1 := by
        simp [buildRemap, ho]
      rw [hstep]
      cases i with
      | zero => simp [ho]
      | succ i =>
        rw [List.getD_cons_succ, ih k i]
        simp only [List.getD_cons_succ, List.length_cons, Nat.add_lt_add_iff_right,
          List.take_succ_cons, List.filter_cons, ho]
        split_ifs <;> first | rfl | contradiction

/-- Survivor list of `prune_dead_entities`: the alive organisms in order,
with consecutive new ids and cleared `agent_ids`. -/
theorem buildRemap_snd (l : List OrganismRuntime) :
    ∀ k : ℕ,
      (buildRemap l k).2.length = (l.filter (·.alive)).length ∧
      ∀ m, m < (l.filter (·.alive)).length →
        (buildRemap l k).2.getD m dummyOrganism =
          { (l.filter (·.alive)).getD m dummyOrganism with
            id := k + m, agent_ids := [] } := by
  induction l with
  | nil => intro k; exact ⟨rfl, by intro m hm; simp at hm⟩
  | cons o os ih =>
    intro k
    by_cases ho : o.alive
    · have hstep : buildRemap (o :: os) k =
          (some k :: (buildRemap os (k + 1)).1,
           { o with id := k, agent_ids := [] } :: (buildRemap os (k + 1)).2) := by
        simp [buildRemap, ho]
      rw [hstep]
      constructor
      · simp [List.filter_cons, ho, ((ih (k + 1)).1)]
      · intro m hm
        cases m with
        | zero => simp [List.filter_cons, ho]
        | succ m =>
          simp only [List.getD_cons_succ]
          rw [(ih (k + 1)).2 m (by simp [List.filter_cons, ho] at hm; omega)]
          simp only [List.filter_cons, ho, if_pos, List.getD_cons_succ]
          congr 1
          omega
    · have hstep : buildRemap (o :: os) k =
          (none :: (buildRemap os k).1, (buildRemap os k).2) := by
        simp [buildRemap, ho]
      rw [hstep]
      constructor
      · simpa [List.filter_cons, ho] using (ih k).1
      · intro m hm
        rw [(ih k).2 m (by simpa [List.filter_cons, ho] using hm)]
        simp [List.filter_cons, ho]

/-- In range, the alive flag of `orgAliveAt` agrees with the default read. -/
theorem orgAliveAt_eq_getD (w : World) (i : ℕ) (h : i < w.organisms.length) :
    w.orgAliveAt i = (w.organisms.getD i dummyOrganism).alive := by
  unfold World.orgAliveAt
  rw [List.getD_eq_getElem?_getD]
  rcases hw : w.organisms[i]? with _ | o
  · exact absurd (List.getElem?_eq_none_iff.mp hw) (by omega)
  · simp

/-- Out of range, `orgAliveAt` is false. -/
theorem orgAliveAt_oob (w : World) (i : ℕ) (h : w.organisms.length ≤ i) :
    w.orgAliveAt i = false := by
  unfold World.orgAliveAt
  rw [List.getElem?_eq_none h]
  rfl

/-- The agent pass of compaction, characterized against the original world:
agents of dead (or dangling) organisms are dropped, survivors keep every
field but have `organism_id` rewritten to the survivor's rank. -/
theorem remapAgents_spec (w : World) :
    ∀ as : List Agent,
      remapAgents (buildRemap w.organisms 0).1 as =
        (as.filter fun a => w.orgAliveAt a.organism_id).map
          (fun a => { a with organism_id := aliveRank w a.organism_id }) := by
  intro as
  induction as with
  | nil => rfl
  | cons a as ih =>
    show (match (buildRemap w.organisms 0).1.getD a.organism_id none with
      | some newId => { a with organism_id := newId } :: remapAgents _ as
      | none => remapAgents _ as) = _
    rw [buildRemap_fst_getD w.organisms 0 a.organism_id]
    by_cases hlt : a.organism_id < w.organisms.length
    · rw [if_pos hlt]
      by_cases hal : (w.organisms.getD a.organism_id dummyOrganism).alive
      · rw [if_pos hal]
        have hflag : w.orgAliveAt a.organism_id = true := by
          rw [orgAliveAt_eq_getD w _ hlt]; exact hal
        simp only [List.filter_cons, hflag, ih, List.map_cons, if_true]
        simp [aliveRank]
      · rw [if_neg hal]
        have hflag : w.orgAliveAt a.organism_id = false := by
          rw [orgAliveAt_eq_getD w _ hlt]
          exact Bool.not_eq_true _ ▸ (by simpa using hal)
        simp [List.filter_cons, hflag, ih]
    · rw [if_neg hlt]
      have hflag : w.orgAliveAt a.organism_id = false :=
        orgAliveAt_oob w _ (by omega)
      simp [List.filter_cons, hflag, ih]

/-- C2: on any world with at least one dead organism, compaction keeps the
survivors in order with every field but the rewritten array id and rebuilt
`agent_ids` preserved bit for bit, assigns consecutive new ids, drops exactly
the agents of dead organisms, and rewrites each surviving agent's
`organism_id` to its organism's new index (its rank among survivors, which is
the old index minus one when exactly the lower-indexed organisms died). -/
theorem c2_prune_compacts (w : World) (h : ∃ o ∈ w.organisms, o.alive = false) :
    pruneSpec w := by
  have hall : ¬ (w.organisms.all fun o => o.alive) = true := by
    obtain ⟨o, ho, hdead⟩ := h
    simp only [List.all_eq_true]
    intro hc
    have hx := hc o ho
    rw [hdead] at hx
    exact Bool.false_ne_true hx
  have hprune : pruneDeadEntities w =
      { w with
        organisms := pushAgentIds (buildRemap w.organisms 0).2
          (remapAgents (buildRemap w.organisms 0).1 w.agents),
        agents := remapAgents (buildRemap w.organisms 0).1 w.agents,
        org_toroidal_sums := List.replicate
          (pushAgentIds (buildRemap w.organisms 0).2
            (remapAgents (buildRemap w.organisms 0).1 w.agents)).length ⟨0, 0, 0, 0⟩,
        org_counts := List.replicate
          (pushAgentIds (buildRemap w.organisms 0).2
            (remapAgents (buildRemap w.organisms 0).1 w.agents)).length 0 } := by
    simp only [pruneDeadEntities, if_neg hall]
  unfold pruneSpec
  rw [hprune]
  refine ⟨?_, ?_, ?_⟩
  · rw [pushAgentIds_length, (buildRemap_snd w.organisms 0).1]
  · intro k hk
    have hk2 : k < (buildRemap w.organisms 0).2.length := by
      rw [(buildRemap_snd w.organisms 0).1]; exact hk
    rw [pushAgentIds_getD _ _ _ hk2, (buildRemap_snd w.organisms 0).2 k hk]
    refine ⟨⟨rfl, rfl, rfl, rfl, rfl, rfl, rfl, rfl, rfl, rfl, rfl, rfl, rfl⟩,
      Nat.zero_add k, ?_⟩
    simp
  · exact remapAgents_spec w w.agents

/-- C2 witness: the two-organism world with organism 0 dead satisfies the
compaction specification. -/
theorem c2_prune_compacts_witness :
    (∃ o ∈ c2World.organisms, o.alive = false) ∧ pruneSpec c2World := by
  have hyp : ∃ o ∈ c2World.organisms, o.alive = false :=
    ⟨_, List.mem_cons_self _ _, rfl⟩
  exact ⟨hyp, c2_prune_compacts c2World hyp⟩

/-- C8: `try_run_experiment` fails with `InvalidSampleEvery` exactly when
`sample_every = 0`; otherwise with `TooManySteps` when `steps > 1,000,000`,
and with `TooManySamples` when the implied sample count
`(steps - 1) / sample_every + 1` exceeds 50,000; every error is returned
before any step runs, leaving the world unchanged. -/
theorem c8_experiment_errors (env : Env) (steps sampleEvery : ℕ) (w : World) :
    ((tryRunExperiment env steps sampleEvery w).1 =
        Except.error ExperimentError.invalidSampleEvery ↔ sampleEvery = 0) ∧
    (sampleEvery ≠ 0 → steps > maxExperimentSteps →
      (tryRunExperiment env steps sampleEvery w).1 =
        Except.error (ExperimentError.tooManySteps maxExperimentSteps steps)) ∧
    (sampleEvery ≠ 0 → steps ≤ maxExperimentSteps → steps ≠ 0 →
      (steps - 1) / sampleEvery + 1 > maxExperimentSamples →
      (tryRunExperiment env steps sampleEvery w).1 =
        Except.error (ExperimentError.tooManySamples maxExperimentSamples
          ((steps - 1) / sampleEvery + 1))) ∧
    (∀ e, (tryRunExperiment env steps sampleEvery w).1 = Except.error e →
      (tryRunExperiment env steps sampleEvery w).2 = w) := by
  refine ⟨⟨?_, ?_⟩, ?_, ?_, ?_⟩
  · intro hc
    by_contra h0
    revert hc
    simp only [tryRunExperiment, if_neg h0]
    split_ifs <;> simp
  · intro h0
    simp [tryRunExperiment, h0]
  · intro hne hgt
    simp only [tryRunExperiment, if_neg hne, if_pos hgt]
  · intro hne hle hz hgt
    simp only [tryRunExperiment, if_neg hne, if_neg (by omega : ¬ steps > maxExperimentSteps),
      if_neg hz, if_pos hgt]
  · intro e
    simp only [tryRunExperiment]
    split_ifs <;> intro he <;> first | rfl | simp at he

/-- C8 witness: with `sample_every = 0` the run fails with
`InvalidSampleEvery` and leaves the world untouched. -/
theorem c8_experiment_errors_witness :
    (tryRunExperiment zeroEnv 5 0 tinyWorld).1 =
      Except.error ExperimentError.invalidSampleEvery ∧
    (tryRunExperiment zeroEnv 5 0 tinyWorld).2 = tinyWorld := by
  refine ⟨(c8_experiment_errors zeroEnv 5 0 tinyWorld).1.mpr rfl, ?_⟩
  exact (c8_experiment_errors zeroEnv 5 0 tinyWorld).2.2.2
    ExperimentError.invalidSampleEvery
    ((c8_experiment_errors zeroEnv 5 0 tinyWorld).1.mpr rfl)

/-- The step indices recorded by the experiment loop are exactly the loop
steps that are sampling steps or the final step, in order. -/
theorem expSteps_steps_map (env : Env) (se total : ℕ) :
    ∀ (ks : List ℕ) (w : World),
      ((expSteps env se total ks w).2.map (·.step)) =
        ks.filter (fun k => decide (k % se = 0 ∨ k = total)) := by
  intro ks
  induction ks with
  | nil => intro w; rfl
  | cons k ks ih =>
    intro w
    show (((if k % se = 0 ∨ k = total
        then [collectStepMetrics env (step env w) k] else []) ++
      (expSteps env se total ks (step env w)).2).map (·.step)) = _
    rw [List.map_append, ih, List.filter_cons]
    by_cases hk : k % se = 0 ∨ k = total
    · rw [if_pos hk, if_pos (by exact decide_eq_true hk)]
      rfl
    · rw [if_neg hk, if_neg (by simpa using hk)]
      rfl

/-- C10: an accepted run with `steps ≥ 1` returns one metrics entry per
sampled step, in step order: the sampled steps are exactly the multiples of
`sample_every` plus the final step, the final step is always present, and no
step is sampled twice. -/
theorem c10_final_step_sampled (env : Env) (steps sampleEvery : ℕ) (w : World)
    (h1 : 1 ≤ steps) (h2 : 1 ≤ sampleEvery) (h3 : steps ≤ maxExperimentSteps)
    (h4 : (steps - 1) / sampleEvery + 1 ≤ maxExperimentSamples) :
    ∃ s, (tryRunExperiment env steps sampleEvery w).1 = Except.ok s ∧
      (s.samples.map (·.step)) =
        (List.range' 1 steps).filter
          (fun k => decide (k % sampleEvery = 0 ∨ k = steps)) ∧
      steps ∈ s.samples.map (·.step) ∧
      (s.samples.map (·.step)).Nodup := by
  have hest : ¬ ((if steps = 0 then 0 else (steps - 1) / sampleEvery + 1) >
      maxExperimentSamples) := by
    rw [if_neg (by omega)]
    omega
  simp only [tryRunExperiment, if_neg (by omega : ¬ sampleEvery = 0),
    if_neg (by omega : ¬ steps > maxExperimentSteps), if_neg hest]
  refine ⟨_, rfl, expSteps_steps_map env sampleEvery steps (List.range' 1 steps) _,
    ?_, ?_⟩
  · rw [expSteps_steps_map]
    refine List.mem_filter.mpr ⟨?_, by simp⟩
    have : steps ∈ List.range' 1 steps ↔ 1 ≤ steps ∧ steps < 1 + steps :=
      List.mem_range'_1
    exact this.mpr ⟨h1, by omega⟩
  · rw [expSteps_steps_map]
    exact List.Nodup.filter _ (List.nodup_range' 1 steps)

/-- C10 witness: a 3-step run sampled every 2 steps on the empty world
records exactly steps 2 and 3, including the final step once. -/
theorem c10_final_step_sampled_witness :
    ((1 : ℕ) ≤ 3 ∧ (1 : ℕ) ≤ 2 ∧ 3 ≤ maxExperimentSteps ∧
      (3 - 1) / 2 + 1 ≤ maxExperimentSamples) ∧
    (∃ s, (tryRunExperiment zeroEnv 3 2 tinyWorld).1 = Except.ok s ∧
      (s.samples.map (·.step)) =
        (List.range' 1 3).filter (fun k => decide (k % 2 = 0 ∨ k = 3)) ∧
      3 ∈ s.samples.map (·.step) ∧
      (s.samples.map (·.step)).Nodup) :=
  ⟨⟨by omega, by omega, by norm_num [maxExperimentSteps],
      by norm_num [maxExperimentSamples]⟩,
    c10_final_step_sampled zeroEnv 3 2 tinyWorld (by omega) (by omega)
      (by norm_num [maxExperimentSteps]) (by norm_num [maxExperimentSamples])⟩

/-- `TracksAgents` when nothing changes but a possible allocator growth. -/
theorem tracks_of_le {w w' : World} (hag : w'.agents = w.agents)
    (hle : w.next_agent_id ≤ w'.next_agent_id) (hmax : w'.next_agent_id ≤ u32Max) :
    TracksAgents w w' :=
  ⟨hle, hmax, fun _ ha => Or.inl (hag ▸ ha)⟩

/-- `TracksAgents` composes. -/
theorem tracks_trans {w w1 w2 : World} (h1 : TracksAgents w w1)
    (h2 : TracksAgents w1 w2) : TracksAgents w w2 := by
  obtain ⟨a1, b1, c1⟩ := h1
  obtain ⟨a2, b2, c2⟩ := h2
  refine ⟨le_trans a1 a2, b2, fun a ha => ?_⟩
  rcases c2 a ha with hmem | ⟨hge, hlt⟩
  · exact c1 a hmem
  · exact Or.inr ⟨le_trans a1 hge, hlt⟩

/-- Tracking the spawn loop: fresh agents carry ids from the current
allocator onward, below `u32::MAX`; organisms are untouched. -/
theorem spawnChildren_track (env : Env) (cfg : SimConfig) (childId : ℕ)
    (center : ℚ × ℚ) :
    ∀ (n : ℕ) (w : World), w.next_agent_id ≤ u32Max →
      TracksAgents w (spawnChildren env cfg childId center n w).1 ∧
      (spawnChildren env cfg childId center n w).1.organisms = w.organisms := by
  intro n
  induction n with
  | zero => intro w hw; exact ⟨tracks_of_le rfl (le_refl _) hw, rfl⟩
  | succ n ih =>
    intro w hw
    simp only [spawnChildren, nextAgentIdChecked]
    by_cases hmax : w.next_agent_id = u32Max
    · rw [if_pos (show (World.withRng w ((w.rng.draw env).2.draw env).2).next_agent_id
        = u32Max from hmax)]
      exact ⟨tracks_of_le rfl (le_refl _) hw, rfl⟩
    · rw [if_neg (show ¬ (World.withRng w ((w.rng.draw env).2.draw env).2).next_agent_id
        = u32Max from hmax)]
      have hlt : w.next_agent_id < u32Max := lt_of_le_of_ne hw hmax
      obtain ⟨ht, ho⟩ := ih
        (((World.withRng w ((w.rng.draw env).2.draw env).2).bumpNext).pushAgent
          (childAgent
            (World.withRng w ((w.rng.draw env).2.draw env).2).next_agent_id childId
            (spawnPos env cfg center (w.rng.draw env).1
              ((w.rng.draw env).2.draw env).1)))
        (by simpa using hlt)
      have hpush : TracksAgents w
          (((World.withRng w ((w.rng.draw env).2.draw env).2).bumpNext).pushAgent
            (childAgent
              (World.withRng w ((w.rng.draw env).2.draw env).2).next_agent_id childId
              (spawnPos env cfg center (w.rng.draw env).1
                ((w.rng.draw env).2.draw env).1))) := by
        refine ⟨Nat.le_succ _, by simpa using hlt, fun a ha => ?_⟩
        rcases List.mem_append.mp ha with hold | hnew
        · exact Or.inl hold
        · rcases List.mem_singleton.mp hnew with rfl
          exact Or.inr ⟨le_refl _, hlt⟩
      exact ⟨tracks_trans hpush ht, ho⟩

/-- Tracking across one spawn call from a world that differs only away from
agents and allocator. -/
theorem track_branch_a (env : Env) (ca : ℕ) (cfg : SimConfig) (cid : ℕ)
    (center : ℚ × ℚ) (w w2 : World)
    (hw : w.next_agent_id ≤ u32Max) (hag : w2.agents = w.agents)
    (hnext : w2.next_agent_id = w.next_agent_id) :
    TracksAgents w (spawnChildren env cfg cid center ca w2).1 := by
  have h2 : w2.next_agent_id ≤ u32Max := by rw [hnext]; exact hw
  exact tracks_trans (tracks_of_le hag (le_of_eq hnext.symm) h2)
    (spawnChildren_track env cfg cid center ca w2 h2).1

/-- Tracking across one full reproduction of a child followed by the rest of
the parent loop. -/
theorem track_branch_b (env : Env) (ca : ℕ) (centers : List (Option (ℚ × ℚ)))
    (rest : List ℕ)
    (ih : ∀ v : World, v.next_agent_id ≤ u32Max →
      TracksAgents v (reproduceGo env ca centers rest v))
    (cfg : SimConfig) (cid : ℕ) (center : ℚ × ℚ) (sid : ℕ)
    (child : OrganismRuntime) (w w2 : World)
    (hw : w.next_agent_id ≤ u32Max) (hag : w2.agents = w.agents)
    (hnext : w2.next_agent_id = w.next_agent_id) :
    TracksAgents w (reproduceGo env ca centers rest
      (pushChildOrganism (spawnChildren env cfg cid center ca w2).1 sid child)) := by
  have h2 : w2.next_agent_id ≤ u32Max := by rw [hnext]; exact hw
  have hsp := spawnChildren_track env cfg cid center ca w2 h2
  refine tracks_trans (tracks_of_le hag (le_of_eq hnext.symm) h2) ?_
  refine tracks_trans hsp.1 ?_
  refine tracks_trans (tracks_of_le ?_ ?_ ?_)
    (ih (pushChildOrganism (spawnChildren env cfg cid center ca w2).1 sid child) ?_)
  · rfl
  · exact le_refl _
  · exact hsp.1.2.1
  · exact hsp.1.2.1

/-- Tracking the parent loop of `maybe_reproduce`. -/
theorem reproduceGo_track (env : Env) (ca : ℕ)
    (centers : List (Option (ℚ × ℚ))) :
    ∀ (ps : List ℕ) (w : World), w.next_agent_id ≤ u32Max →
      TracksAgents w (reproduceGo env ca centers ps w) := by
  intro ps
  induction ps with
  | nil => intro w hw; exact tracks_of_le rfl (le_refl _) hw
  | cons pidx rest ih =>
    intro w hw
    simp only [reproduceGo]
    split_ifs with h1 h2 h3 h4 h5 h6 <;>
      first
        | exact tracks_of_le rfl (le_refl _) hw
        | exact ih w hw
        | exact track_branch_a env ca _ _ _ w _ hw rfl rfl
        | exact track_branch_b env ca centers rest ih _ _ _ _ _ w _ hw rfl rfl

/-- Agent tracking across `maybe_reproduce`. -/
theorem maybeReproduce_track (env : Env) (w : World)
    (hw : w.next_agent_id ≤ u32Max) : TracksAgents w (maybeReproduce env w) := by
  unfold maybeReproduce
  dsimp only
  split_ifs with h
  · exact tracks_of_le rfl (le_refl _) hw
  · exact reproduceGo_track env _ _ (parentIndices w) w hw

/-- C9 (amended): when allocating the child ids would leave the allocator at
least two short (`u32::MAX - next_agent_id + 1 < child_agents`), the first
eligible parent is skipped with both exhaustion counters incremented and the
world otherwise untouched; and in all cases reproduction never allocates the
id `u32::MAX` (every agent after `maybe_reproduce` is pre-existing or has a
smaller id) and never panics. When exactly one id is missing, however, the
source check passes and a truncated child is spawned with no event — the
counterexample. -/
theorem c9_agent_id_exhaustion (env : Env) (w : World)
    ( _hn : w.next_agent_id ≤ u32Max)
    (hcap : w.agents.length + childAgentsOf w.config ≤ env.maxTotalAgents)
    (hpar : parentIndices w ≠ [])
    (hex : u32Max - w.next_agent_id + 1 < childAgentsOf w.config) :
    (maybeReproduce env w).organisms = w.organisms ∧
    (maybeReproduce env w).agents = w.agents ∧
    (maybeReproduce env w).agent_id_exhaustions_last_step =
      w.agent_id_exhaustions_last_step + 1 ∧
    (maybeReproduce env w).total_agent_id_exhaustions =
      w.total_agent_id_exhaustions + 1 ∧
    (∀ env2 w2, w2.next_agent_id ≤ u32Max →
      ∀ a ∈ (maybeReproduce env2 w2).agents,
        a ∈ w2.agents ∨ (w2.next_agent_id ≤ a.id ∧ a.id < u32Max)) := by
  have hmain : maybeReproduce env w = recordExhaustion w := by
    unfold maybeReproduce
    dsimp only
    rw [if_neg (by simpa [List.isEmpty_iff] using hpar)]
    obtain ⟨p, rest, hp⟩ : ∃ p rest, parentIndices w = p :: rest := by
      cases hpl : parentIndices w with
      | nil => exact absurd hpl hpar
      | cons p r => exact ⟨p, r, rfl⟩
    rw [hp]
    simp only [reproduceGo]
    rw [if_neg (by omega), if_pos hex]
  rw [hmain]
  exact ⟨rfl, rfl, rfl, rfl,
    fun env2 w2 h2 a ha => (maybeReproduce_track env2 w2 h2).2.2 a ha⟩

/-- C9 counterexample: with one free id (`next_agent_id = u32::MAX - 1`) and
`child_agents = 2`, allocating the child ids would exhaust the id space, yet
the source's `remaining + 1 < child_agents` check lets the parent reproduce —
a child is born (with one agent instead of two) and no exhaustion event is
recorded. -/
theorem c9_counterexample :
    u32Max - c9World.next_agent_id < childAgentsOf c9World.config ∧
    (maybeReproduce zeroEnv c9World).total_agent_id_exhaustions = 0 ∧
    (maybeReproduce zeroEnv c9World).agent_id_exhaustions_last_step = 0 ∧
    (maybeReproduce zeroEnv c9World).total_births = 1 ∧
    (maybeReproduce zeroEnv c9World).organisms.length = 2 := by
  refine ⟨?_, ?_, ?_, ?_, ?_⟩ <;> exact of_decide_eq_true (by with_unfolding_all rfl)

/-- C9 witness: with the id space fully exhausted
(`next_agent_id = u32::MAX`), the eligible parent is skipped and both
counters increment. -/
theorem c9_agent_id_exhaustion_witness :
    (c9bWorld.next_agent_id ≤ u32Max ∧
     c9bWorld.agents.length + childAgentsOf c9bWorld.config ≤ zeroEnv.maxTotalAgents ∧
     parentIndices c9bWorld ≠ [] ∧
     u32Max - c9bWorld.next_agent_id + 1 < childAgentsOf c9bWorld.config) ∧
    ((maybeReproduce zeroEnv c9bWorld).organisms = c9bWorld.organisms ∧
     (maybeReproduce zeroEnv c9bWorld).agents = c9bWorld.agents ∧
     (maybeReproduce zeroEnv c9bWorld).agent_id_exhaustions_last_step =
       c9bWorld.agent_id_exhaustions_last_step + 1 ∧
     (maybeReproduce zeroEnv c9bWorld).total_agent_id_exhaustions =
       c9bWorld.total_agent_id_exhaustions + 1 ∧
     (∀ env2 w2, w2.next_agent_id ≤ u32Max →
       ∀ a ∈ (maybeReproduce env2 w2).agents,
         a ∈ w2.agents ∨ (w2.next_agent_id ≤ a.id ∧ a.id < u32Max))) := by
  have h1 : c9bWorld.next_agent_id ≤ u32Max :=
    of_decide_eq_true (by with_unfolding_all rfl)
  have h2 : c9bWorld.agents.length + childAgentsOf c9bWorld.config ≤
      zeroEnv.maxTotalAgents := of_decide_eq_true (by with_unfolding_all rfl)
  have h3 : parentIndices c9bWorld ≠ [] :=
    of_decide_eq_true (by with_unfolding_all rfl)
  have h4 : u32Max - c9bWorld.next_agent_id + 1 < childAgentsOf c9bWorld.config :=
    of_decide_eq_true (by with_unfolding_all rfl)
  exact ⟨⟨h1, h2, h3, h4⟩, c9_agent_id_exhaustion zeroEnv c9bWorld h1 h2 h3 h4⟩

/-- C1: a run is a pure function of its inputs. Two worlds constructed by
`try_new` from identical (agents, founder networks, config — the seed lives
in the config) give bit-identical results from `try_run_experiment` and
`try_run_experiment_with_snapshots` (samples, lineage events, snapshots and
final world alike); and the genome-diversity sampler reads only the step
index (its RNG is freshly seeded from `step_index`) and the organism list,
never the main world RNG. -/
theorem c1_determinism (env : Env) (agents : List Agent)
    (nns : List (NeuralNet ℚ)) (cfg : SimConfig) (steps sampleEvery : ℕ)
    (snapAt : List ℕ) (w1 w2 : World)
    (h1 : tryNew env agents nns cfg = Except.ok w1)
    (h2 : tryNew env agents nns cfg = Except.ok w2) :
    tryRunExperiment env steps sampleEvery w1 =
      tryRunExperiment env steps sampleEvery w2 ∧
    tryRunExperimentWithSnapshots env steps sampleEvery snapAt w1 =
      tryRunExperimentWithSnapshots env steps sampleEvery snapAt w2 ∧
    (∀ wa wb : World, wa.step_index = wb.step_index →
      wa.organisms = wb.organisms →
      computeGenomeDiversity env wa.step_index wa.organisms =
        computeGenomeDiversity env wb.step_index wb.organisms) := by
  have hw : w1 = w2 := by
    have h := h1.symm.trans h2
    exact Except.ok.inj h
  subst hw
  exact ⟨rfl, rfl, fun wa wb hs ho => by rw [hs, ho]⟩

/-- C1 witness: the empty founder world is constructed by `try_new` and the
determinism conclusion holds on it. -/
theorem c1_determinism_witness :
    tryNew zeroEnv [] [] tinyConfig = Except.ok tinyWorld ∧
    (tryRunExperiment zeroEnv 3 2 tinyWorld =
       tryRunExperiment zeroEnv 3 2 tinyWorld ∧
     tryRunExperimentWithSnapshots zeroEnv 3 2 [1] tinyWorld =
       tryRunExperimentWithSnapshots zeroEnv 3 2 [1] tinyWorld ∧
     (∀ wa wb : World, wa.step_index = wb.step_index →
       wa.organisms = wb.organisms →
       computeGenomeDiversity zeroEnv wa.step_index wa.organisms =
         computeGenomeDiversity zeroEnv wb.step_index wb.organisms)) := by
  have h : tryNew zeroEnv [] [] tinyConfig = Except.ok tinyWorld := by
    with_unfolding_all rfl
  exact ⟨h, c1_determinism zeroEnv [] [] tinyConfig 3 2 [1] tinyWorld tinyWorld h h⟩

/-- Membership in `updateNth`: the element is untouched or the image of the
slot. -/
theorem mem_updateNth {α : Type} : ∀ (l : List α) (i : ℕ) (f : α → α) (x : α),
    x ∈ updateNth l i f → x ∈ l ∨ ∃ h : i < l.length, x = f (l.get ⟨i, h⟩)
  | [], i, f, x, hx => by simp [updateNth] at hx
  | a :: as, 0, f, x, hx => by
    rcases List.mem_cons.mp hx with h | h
    · exact Or.inr ⟨by simp, by simpa using h⟩
    · exact Or.inl (List.mem_cons_of_mem a h)
  | a :: as, i + 1, f, x, hx => by
    rcases List.mem_cons.mp hx with h | h
    · exact Or.inl (h ▸ List.mem_cons_self a as)
    · rcases mem_updateNth as i f x h with h2 | ⟨hlt, he⟩
      · exact Or.inl (List.mem_cons_of_mem a h2)
      · exact Or.inr ⟨by simpa using Nat.succ_lt_succ hlt, by simpa using he⟩

/-- `OrgDescends` is reflexive. -/
theorem orgDescends_refl (o : OrganismRuntime) : OrgDescends o o :=
  ⟨rfl, fun h => h, fun h => Or.inr ⟨h, rfl⟩⟩

/-- `OrgDescends` composes. -/
theorem orgDescends_trans {o1 o2 o3 : OrganismRuntime} (h12 : OrgDescends o1 o2)
    (h23 : OrgDescends o2 o3) : OrgDescends o1 o3 := by
  obtain ⟨s12, a12, d12⟩ := h12
  obtain ⟨s23, a23, d23⟩ := h23
  refine ⟨s12.trans s23, fun h => a12 (a23 h), fun h => ?_⟩
  rcases d23 h with h0 | ⟨hdead2, heq⟩
  · exact Or.inl h0
  · rcases d12 hdead2 with h0 | ⟨hdead1, heq1⟩
    · exact Or.inl (heq.trans h0)
    · exact Or.inr ⟨hdead1, heq.trans heq1⟩

/-- `OrgDescends` between records agreeing on stable id, liveness and
boundary. -/
theorem orgDescends_same {o o' : OrganismRuntime} (hs : o.stable_id = o'.stable_id)
    (ha : o.alive = o'.alive) (hb : o.boundary_integrity = o'.boundary_integrity) :
    OrgDescends o o' :=
  ⟨hs, fun h => ha.trans h, fun h => Or.inr ⟨ha.trans h, hb.symm⟩⟩

/-- An alive organism descends into any boundary rewrite of itself. -/
theorem orgDescends_boundary_alive {o : OrganismRuntime} (ha : o.alive = true)
    (b : ℚ) : OrgDescends o { o with boundary_integrity := b } :=
  ⟨rfl, fun h => h, fun hco => nomatch ha.symm.trans hco⟩

/-- An organism descends into its killed form (boundary zeroed). -/
theorem orgDescends_killed (o : OrganismRuntime) :
    OrgDescends o { o with alive := false, boundary_integrity := 0 } := by
  refine ⟨rfl, fun h => ?_, fun _ => Or.inl rfl⟩
  simp at h

/-- `OrgTrack` from unchanged organisms and a non-decreasing counter. -/
theorem orgTrack_of_le {w w' : World} (ho : w'.organisms = w.organisms)
    (hle : w.next_organism_stable_id ≤ w'.next_organism_stable_id) :
    OrgTrack w w' :=
  ⟨hle, fun o' h => Or.inl ⟨o', ho ▸ h, orgDescends_refl o'⟩⟩

/-- `OrgTrack` from a pointwise descent map. -/
theorem orgTrack_of_descends {w w2 : World}
    (horg : ∀ o' ∈ w2.organisms, ∃ o ∈ w.organisms, OrgDescends o o')
    (hst : w.next_organism_stable_id ≤ w2.next_organism_stable_id) :
    OrgTrack w w2 :=
  ⟨hst, fun o' ho' => Or.inl (horg o' ho')⟩

/-- Descending one more hop stays inside `OrgTrack`. -/
theorem orgTrack_descend {w w' : World} (h : OrgTrack w w')
    {y o' : OrganismRuntime} (hy : y ∈ w'.organisms) (hd : OrgDescends y o') :
    (∃ o ∈ w.organisms, OrgDescends o o') ∨
    (w.next_organism_stable_id ≤ o'.stable_id ∧
      (o'.alive = false → o'.boundary_integrity = 0)) := by
  rcases h.2 y hy with ⟨o, ho, hd0⟩ | ⟨hf, hcl⟩
  · exact Or.inl ⟨o, ho, orgDescends_trans hd0 hd⟩
  · refine Or.inr ⟨hd.1 ▸ hf, fun hdead => ?_⟩
    rcases hd.2.2 hdead with h0 | ⟨hydead, heq⟩
    · exact h0
    · exact heq.trans (hcl hydead)

/-- `OrgTrack` composes. -/
theorem orgTrack_trans {w w1 w2 : World} (h1 : OrgTrack w w1)
    (h2 : OrgTrack w1 w2) : OrgTrack w w2 := by
  refine ⟨le_trans h1.1 h2.1, fun o'' h => ?_⟩
  rcases h2.2 o'' h with ⟨o', ho', hd⟩ | ⟨hf, hcl⟩
  · exact orgTrack_descend h1 ho' hd
  · exact Or.inr ⟨le_trans h1.1 hf, hcl⟩

/-- Image elements of a descent-preserving `updateNth` descend from the
list. -/
theorem updateNth_descends {l : List OrganismRuntime} {i : ℕ}
    {g : OrganismRuntime → OrganismRuntime} (hg : ∀ y, OrgDescends y (g y))
    {x : OrganismRuntime} (hx : x ∈ updateNth l i g) :
    ∃ y ∈ l, OrgDescends y x := by
  rcases mem_updateNth l i g x hx with h | ⟨hlt, he⟩
  · exact ⟨x, h, orgDescends_refl x⟩
  · exact ⟨l.get ⟨i, hlt⟩, List.get_mem l i hlt, by rw [he]; exact hg _⟩

/-- `mark_dead` keeps agents and the allocators. -/
theorem markDead_frame (w : World) (i : ℕ) :
    (markDead w i).agents = w.agents ∧
    (markDead w i).next_agent_id = w.next_agent_id ∧
    (markDead w i).next_organism_stable_id = w.next_organism_stable_id := by
  unfold markDead
  split
  · exact ⟨rfl, rfl, rfl⟩
  · split_ifs <;> exact ⟨rfl, rfl, rfl⟩

/-- Folding `mark_dead` keeps agents and the allocators. -/
theorem foldl_markDead_frame : ∀ (l : List ℕ) (w : World),
    ((l.foldl markDead w).agents = w.agents ∧
     (l.foldl markDead w).next_agent_id = w.next_agent_id ∧
     (l.foldl markDead w).next_organism_stable_id = w.next_organism_stable_id)
  | [], _ => ⟨rfl, rfl, rfl⟩
  | i :: is, w => by
    have h1 := markDead_frame w i
    have h2 := foldl_markDead_frame is (markDead w i)
    exact ⟨h2.1.trans h1.1, h2.2.1.trans h1.2.1, h2.2.2.trans h1.2.2⟩

/-- `mark_dead` preserves organism tracking. -/
theorem markDead_orgTrack {w w' : World} (i : ℕ) (h : OrgTrack w w') :
    OrgTrack w (markDead w' i) := by
  unfold markDead
  split
  · exact h
  · split_ifs with ha
    · refine ⟨h.1, fun o' ho' => ?_⟩
      rcases mem_updateNth _ _ _ _ ho' with hmem | ⟨hlt, he⟩
      · exact h.2 o' hmem
      · exact orgTrack_descend h (List.get_mem _ _ hlt)
          (by rw [he]; exact orgDescends_killed _)
    · exact h

/-- Folding `mark_dead` preserves organism tracking. -/
theorem foldl_markDead_orgTrack {w : World} : ∀ (l : List ℕ) {w' : World},
    OrgTrack w w' → OrgTrack w (l.foldl markDead w')
  | [], _, h => h
  | i :: is, _, h => foldl_markDead_orgTrack is (markDead_orgTrack i h)

/-- The payload of an enumerated pair is in the list. -/
theorem mem_enumerate {α : Type} {l : List α} {p : ℕ × α}
    (h : p ∈ enumerate l) : p.2 ∈ l :=
  (List.of_mem_zip h).2

/-- A `getD` inside the range is a member. -/
theorem getD_mem_of_lt {α : Type} (l : List α) (i : ℕ) (d : α)
    (h : i < l.length) : l.getD i d ∈ l := by
  rw [List.getD_eq_getElem l d h]
  exact List.getElem_mem h

/-- `mem_updateNth` phrased through `getD`. -/
theorem mem_updateNth_getD {α : Type} (d : α) (l : List α) (i : ℕ) (f : α → α)
    (x : α) (hx : x ∈ updateNth l i f) :
    x ∈ l ∨ (i < l.length ∧ x = f (l.getD i d)) := by
  rcases mem_updateNth l i f x hx with h | ⟨hlt, he⟩
  · exact Or.inl h
  · refine Or.inr ⟨hlt, ?_⟩
    rw [he, List.getD_eq_getElem l d hlt]
    rfl

/-- Descent through an `updateNth` whose slot image descends. -/
theorem updateNth_descends_slot {l : List OrganismRuntime} {i : ℕ}
    {g : OrganismRuntime → OrganismRuntime} {x : OrganismRuntime}
    (hx : x ∈ updateNth l i g)
    (hg : OrgDescends (l.getD i dummyOrganism) (g (l.getD i dummyOrganism))) :
    ∃ y ∈ l, OrgDescends y x := by
  rcases mem_updateNth_getD dummyOrganism l i g x hx with h | ⟨hlt, he⟩
  · exact ⟨x, h, orgDescends_refl x⟩
  · exact ⟨l.getD i dummyOrganism, getD_mem_of_lt l i dummyOrganism hlt,
      by rw [he]; exact hg⟩

/-- The boundary phase preserves organism tracking: dead organisms get
boundary 0, live ones a boundary rewrite, deaths go through `mark_dead`. -/
theorem boundary_orgTrack (env : Env) (hs : List ℚ) (hc : List ℕ) (thr : ℚ)
    {w w' : World} (h : OrgTrack w w') :
    OrgTrack w (stepBoundaryPhase env hs hc thr w') := by
  unfold stepBoundaryPhase
  split_ifs with hb
  case neg => exact h
  case pos =>
    refine foldl_markDead_orgTrack _ ⟨h.1, fun o' ho' => ?_⟩
    rcases List.mem_map.mp ho' with ⟨p, hp, he⟩
    refine orgTrack_descend h (mem_enumerate hp) ?_
    rw [← he]
    dsimp only
    split_ifs with hd
    all_goals first
      | exact ⟨rfl, fun hx => hx, fun _ => Or.inl rfl⟩
      | exact orgDescends_boundary_alive hd _

/-- The metabolism loop only rewrites metabolic state, so its organisms all
descend from the input list. -/
theorem metabGo_descends (env : Env) (cfg : SimConfig) (mode : MetabolismMode)
    (tor : List Tor4) (cnt : List ℕ) (thr : ℚ) :
    ∀ (is : List ℕ) (orgs : List OrganismRuntime) (f : ResourceField),
      ∀ o' ∈ (metabGo env cfg mode tor cnt thr is orgs f).1,
        ∃ o ∈ orgs, OrgDescends o o' := by
  intro is
  induction is with
  | nil =>
    intro orgs f o' ho'
    exact ⟨o', ho', orgDescends_refl o'⟩
  | cons i is ih =>
    intro orgs f o' ho'
    simp only [metabGo] at ho'
    by_cases hd : (orgs.getD i dummyOrganism).alive = true
    · rw [if_neg (not_not_intro hd)] at ho'
      dsimp only at ho'
      split_ifs at ho' <;>
      · try dsimp only at ho'
        obtain ⟨y, hy, hdy⟩ := ih _ _ o' ho'
        obtain ⟨z, hz, hdz⟩ := updateNth_descends_slot hy
          ⟨rfl, fun hx => hx, fun hco => nomatch hd.symm.trans hco⟩
        exact ⟨z, hz, orgDescends_trans hdz hdy⟩
    · rw [if_pos hd] at ho'
      exact ih orgs f o' ho'

/-- The metabolism phase preserves organism tracking. -/
theorem metab_orgTrack (env : Env) (thr : ℚ) {w w' : World}
    (h : OrgTrack w w') : OrgTrack w (stepMetabolismPhase env thr w') := by
  unfold stepMetabolismPhase
  split_ifs with hm
  case neg => exact h
  case pos =>
    refine foldl_markDead_orgTrack _ ⟨h.1, fun o' ho' => ?_⟩
    obtain ⟨y, hy, hd⟩ := metabGo_descends env w'.config w'.metabolism
      w'.org_toroidal_sums w'.org_counts thr _ _ _ o' ho'
    exact orgTrack_descend h hy hd

/-- The growth/crowding loop ages, matures and crowds live organisms in
place, so its organisms all descend from the input list. -/
theorem growthGo_descends (env : Env) (cfg : SimConfig) (ns : List ℚ)
    (ncnt : List ℕ) (thr : ℚ) :
    ∀ (is : List ℕ) (orgs : List OrganismRuntime),
      ∀ o' ∈ (growthGo env cfg ns ncnt thr is orgs).1,
        ∃ o ∈ orgs, OrgDescends o o' := by
  intro is
  induction is with
  | nil =>
    intro orgs o' ho'
    exact ⟨o', ho', orgDescends_refl o'⟩
  | cons i is ih =>
    intro orgs o' ho'
    simp only [growthGo] at ho'
    by_cases hd : (orgs.getD i dummyOrganism).alive = true
    · rw [if_neg (not_not_intro hd)] at ho'
      try dsimp only at ho'
      split_ifs at ho' <;>
      · try dsimp only at ho'
        obtain ⟨y, hy, hdy⟩ := ih _ o' ho'
        obtain ⟨z, hz, hdz⟩ := updateNth_descends_slot hy
          ⟨rfl, fun hx => hx, fun hco => nomatch hd.symm.trans hco⟩
        exact ⟨z, hz, orgDescends_trans hdz hdy⟩
    · rw [if_pos hd] at ho'
      exact ih orgs o' ho'

/-- The growth/crowding phase preserves organism tracking. -/
theorem growth_orgTrack (env : Env) (ns : List ℚ) (ncnt : List ℕ) (thr : ℚ)
    {w w' : World} (h : OrgTrack w w') :
    OrgTrack w (stepGrowthCrowdingPhase env ns ncnt thr w') := by
  unfold stepGrowthCrowdingPhase
  refine foldl_markDead_orgTrack _ ⟨h.1, fun o' ho' => ?_⟩
  obtain ⟨y, hy, hd⟩ := growthGo_descends env w'.config ns ncnt thr _ _ o' ho'
  exact orgTrack_descend h hy hd

/-- The spawn loop never touches organisms or the stable-id counter. -/
theorem spawnChildren_stable (env : Env) (cfg : SimConfig) (cid : ℕ)
    (center : ℚ × ℚ) :
    ∀ (n : ℕ) (w : World),
      (spawnChildren env cfg cid center n w).1.organisms = w.organisms ∧
      (spawnChildren env cfg cid center n w).1.next_organism_stable_id =
        w.next_organism_stable_id := by
  intro n
  induction n with
  | zero => intro w; exact ⟨rfl, rfl⟩
  | succ n ih =>
    intro w
    simp only [spawnChildren, nextAgentIdChecked]
    by_cases hmax : w.next_agent_id = u32Max
    · rw [if_pos (show (World.withRng w ((w.rng.draw env).2.draw env).2).next_agent_id
        = u32Max from hmax)]
      exact ⟨rfl, rfl⟩
    · rw [if_neg (show ¬ (World.withRng w ((w.rng.draw env).2.draw env).2).next_agent_id
        = u32Max from hmax)]
      exact ih _

/-- Organism tracking across one spawn call from a world whose organisms all
descend from `w` with the counter unchanged. -/
theorem orgTrack_branch_a (env : Env) (cfg : SimConfig) (cid : ℕ)
    (center : ℚ × ℚ) (ca : ℕ) (w w2 : World)
    (horg : ∀ o' ∈ w2.organisms, ∃ o ∈ w.organisms, OrgDescends o o')
    (hst : w2.next_organism_stable_id = w.next_organism_stable_id) :
    OrgTrack w (spawnChildren env cfg cid center ca w2).1 := by
  have hsp := spawnChildren_stable env cfg cid center ca w2
  refine ⟨by rw [hsp.2, hst], fun o' ho' => ?_⟩
  rw [hsp.1] at ho'
  exact Or.inl (horg o' ho')

/-- Organism tracking across one full child push followed by the rest of the
parent loop. -/
theorem orgTrack_branch_b (env : Env) (ca : ℕ)
    (centers : List (Option (ℚ × ℚ))) (rest : List ℕ)
    (ih : ∀ v : World, OrgTrack v (reproduceGo env ca centers rest v))
    (cfg : SimConfig) (cid : ℕ) (center : ℚ × ℚ) (sid : ℕ)
    (child : OrganismRuntime) (w w2 : World)
    (horg : ∀ o' ∈ w2.organisms, ∃ o ∈ w.organisms, OrgDescends o o')
    (hst : w2.next_organism_stable_id = w.next_organism_stable_id)
    (hchild : child.stable_id =
      (spawnChildren env cfg cid center ca w2).1.next_organism_stable_id)
    (hcalive : child.alive = true) :
    OrgTrack w (reproduceGo env ca centers rest
      (pushChildOrganism (spawnChildren env cfg cid center ca w2).1 sid child)) := by
  have hsp := spawnChildren_stable env cfg cid center ca w2
  refine orgTrack_trans ?_
    (ih (pushChildOrganism (spawnChildren env cfg cid center ca w2).1 sid child))
  constructor
  · show w.next_organism_stable_id ≤
      (spawnChildren env cfg cid center ca w2).1.next_organism_stable_id + 1
    rw [hsp.2, hst]
    exact Nat.le_succ _
  · intro o' ho'
    rcases List.mem_append.mp ho' with hmem | hc
    · rw [hsp.1] at hmem
      exact Or.inl (horg o' hmem)
    · rcases List.mem_singleton.mp hc with rfl
      refine Or.inr ⟨?_, fun hco => nomatch hcalive.symm.trans hco⟩
      rw [hchild, hsp.2, hst]

/-- Organism tracking across the parent loop of `maybe_reproduce`: parents
only lose energy, children carry fresh stable ids and are born alive. -/
theorem reproduceGo_orgTrack (env : Env) (ca : ℕ)
    (centers : List (Option (ℚ × ℚ))) :
    ∀ (ps : List ℕ) (w : World), OrgTrack w (reproduceGo env ca centers ps w) := by
  intro ps
  induction ps with
  | nil => intro w; exact orgTrack_of_le rfl (le_refl _)
  | cons pidx rest ih =>
    intro w
    simp only [reproduceGo]
    split_ifs with h1 h2 h3 h4 h5 h6 <;>
      first
        | exact orgTrack_of_le rfl (le_refl _)
        | exact ih w
        | exact orgTrack_of_descends
            (fun o' ho' => updateNth_descends_slot ho'
              ⟨rfl, fun hx => hx, fun hdead => Or.inr ⟨hdead, rfl⟩⟩)
            (le_refl _)
        | exact orgTrack_branch_a env _ _ _ ca w _
            (fun o' ho' => updateNth_descends_slot ho'
              ⟨rfl, fun hx => hx, fun hdead => Or.inr ⟨hdead, rfl⟩⟩) rfl
        | exact orgTrack_branch_b env ca centers rest ih _ _ _ _ _ w _
            (fun o' ho' => updateNth_descends_slot ho'
              ⟨rfl, fun hx => hx, fun hdead => Or.inr ⟨hdead, rfl⟩⟩) rfl rfl rfl

/-- Organism tracking across `maybe_reproduce`. -/
theorem maybeReproduce_orgTrack (env : Env) (w : World) :
    OrgTrack w (maybeReproduce env w) := by
  unfold maybeReproduce
  dsimp only
  split_ifs with h
  · exact orgTrack_of_le rfl (le_refl _)
  · exact reproduceGo_orgTrack env _ _ (parentIndices w) w

/-- The `agent_ids` rebuild only rewrices agent-id lists, so its organisms
descend from the base. -/
theorem pushAgentIds_descends :
    ∀ (ags : List Agent) (base : List OrganismRuntime),
      ∀ o' ∈ pushAgentIds base ags, ∃ y ∈ base, OrgDescends y o' := by
  intro ags
  induction ags with
  | nil =>
    intro base o' ho'
    exact ⟨o', ho', orgDescends_refl o'⟩
  | cons a as ih =>
    intro base o' ho'
    simp only [pushAgentIds, List.foldl_cons] at ho'
    obtain ⟨y, hy, hdy⟩ := ih _ o' ho'
    obtain ⟨z, hz, hdz⟩ := updateNth_descends_slot hy
      ⟨rfl, fun hx => hx, fun hdead => Or.inr ⟨hdead, rfl⟩⟩
    exact ⟨z, hz, orgDescends_trans hdz hdy⟩

/-- Survivors of the remap pass descend from the original organisms. -/
theorem buildRemap_descends :
    ∀ (os : List OrganismRuntime) (k : ℕ),
      ∀ o' ∈ (buildRemap os k).2, ∃ o ∈ os, OrgDescends o o' := by
  intro os
  induction os with
  | nil => intro k o' ho'; simp [buildRemap] at ho'
  | cons o os ih =>
    intro k o' ho'
    simp only [buildRemap] at ho'
    by_cases ha : o.alive = true
    · rw [if_pos ha] at ho'
      dsimp only at ho'
      rcases List.mem_cons.mp ho' with h | h
      · refine ⟨o, List.mem_cons_self o os, ?_⟩
        rw [h]
        exact orgDescends_same rfl rfl rfl
      · obtain ⟨z, hz, hdz⟩ := ih _ o' h
        exact ⟨z, List.mem_cons_of_mem o hz, hdz⟩
    · rw [if_neg ha] at ho'
      obtain ⟨z, hz, hdz⟩ := ih _ o' ho'
      exact ⟨z, List.mem_cons_of_mem o hz, hdz⟩

/-- Compaction preserves organism tracking. -/
theorem prune_orgTrack (w' : World) : OrgTrack w' (pruneDeadEntities w') := by
  unfold pruneDeadEntities
  split_ifs with h
  · exact orgTrack_of_le rfl (le_refl _)
  · refine orgTrack_of_descends (fun o' ho' => ?_) (le_refl _)
    obtain ⟨y, hy, hdy⟩ := pushAgentIds_descends _ _ o' ho'
    obtain ⟨o, ho, hdo⟩ := buildRemap_descends w'.organisms 0 y hy
    exact ⟨o, ho, orgDescends_trans hdo hdy⟩

/-- The environment phase only touches the resource field and rate. -/
theorem env_phase_frame (env : Env) (v : World) :
    (stepEnvironmentPhase env v).organisms = v.organisms ∧
    (stepEnvironmentPhase env v).agents = v.agents ∧
    (stepEnvironmentPhase env v).next_agent_id = v.next_agent_id ∧
    (stepEnvironmentPhase env v).next_organism_stable_id =
      v.next_organism_stable_id := by
  unfold stepEnvironmentPhase
  dsimp only
  split_ifs <;> exact ⟨rfl, rfl, rfl, rfl⟩

/-- The agent-state phase keeps organisms and the allocators. -/
theorem statePhase_frame (env : Env) (v : World) (deltas : List (Fin 4 → ℚ)) :
    (stepAgentStatePhase env v deltas).1.organisms = v.organisms ∧
    (stepAgentStatePhase env v deltas).1.next_agent_id = v.next_agent_id ∧
    (stepAgentStatePhase env v deltas).1.next_organism_stable_id =
      v.next_organism_stable_id :=
  ⟨rfl, rfl, rfl⟩

/-- An `ite` between a phase and the identity preserves organism tracking. -/
theorem ite_orgTrack {w v : World} (c : Prop) [Decidable c]
    (h : OrgTrack w v) (f : World → World) (hf : ∀ u, OrgTrack u (f u)) :
    OrgTrack w (if c then f v else v) := by
  split_ifs
  · exact orgTrack_trans h (hf v)
  · exact h

set_option maxHeartbeats 1000000 in
/-- Organism tracking across one whole `step`. -/
theorem step_orgTrack (env : Env) (w : World) : OrgTrack w (step env w) := by
  unfold step
  dsimp only
  refine orgTrack_trans ?_
    (orgTrack_of_le (env_phase_frame env _).1
      (le_of_eq (env_phase_frame env _).2.2.2.symm))
  refine ite_orgTrack _ ?_ _ prune_orgTrack
  refine ite_orgTrack _ ?_ _ (maybeReproduce_orgTrack env)
  refine growth_orgTrack env _ _ _ ?_
  refine metab_orgTrack env _ ?_
  refine boundary_orgTrack env _ _ _ ?_
  refine orgTrack_trans ?_
    (orgTrack_of_le (statePhase_frame env _ _).1
      (le_of_eq (statePhase_frame env _ _).2.2.symm))
  exact orgTrack_of_le rfl (le_refl _)

/-- Agents surviving the remap pass keep id and velocity. -/
theorem mem_remapAgents : ∀ (rm : List (Option ℕ)) (l : List Agent) (b : Agent),
    b ∈ remapAgents rm l → ∃ a ∈ l, a.id = b.id ∧ a.velocity = b.velocity := by
  intro rm l
  induction l with
  | nil => intro b hb; simp [remapAgents] at hb
  | cons a as ih =>
    intro b hb
    simp only [remapAgents] at hb
    rcases hm : rm.getD a.organism_id none with _ | newId <;> rw [hm] at hb
    · obtain ⟨x, hx, h1, h2⟩ := ih b hb
      exact ⟨x, List.mem_cons_of_mem a hx, h1, h2⟩
    · rcases List.mem_cons.mp hb with h | h
      · exact ⟨a, List.mem_cons_self a as, by rw [h], by rw [h]⟩
      · obtain ⟨x, hx, h1, h2⟩ := ih b h
        exact ⟨x, List.mem_cons_of_mem a hx, h1, h2⟩

/-- Each output of the agent-state loop keeps its id, and an agent of a dead
organism comes out with zero velocity. -/
theorem agentStateGo_mem (env : Env) (cfg : SimConfig)
    (orgs : List OrganismRuntime) :
    ∀ (l : List (Agent × (Fin 4 → ℚ))) (tor : List Tor4) (cnt : List ℕ)
      (hs : List ℚ) (hc : List ℕ),
      ∀ b ∈ (agentStateGo env cfg orgs l tor cnt hs hc).agents,
        ∃ p ∈ l, b.id = p.1.id ∧
          (((orgs[p.1.organism_id]?).map (·.alive)).getD false = false →
            b.velocity = (0, 0)) := by
  intro l
  induction l with
  | nil => intro tor cnt hs hc b hb; simp [agentStateGo] at hb
  | cons p rest ih =>
    rcases p with ⟨a, delta⟩
    intro tor cnt hs hc b hb
    simp only [agentStateGo] at hb
    by_cases hal : ((orgs[a.organism_id]?).map (·.alive)).getD false = true
    · rw [if_pos hal] at hb
      try dsimp only at hb
      rcases List.mem_cons.mp hb with h | h
      · refine ⟨(a, delta), List.mem_cons_self _ _, by rw [h], fun hdead => ?_⟩
        exact absurd (hal.symm.trans hdead) (by simp)
      · obtain ⟨q, hq, h1, h2⟩ := ih _ _ _ _ b h
        exact ⟨q, List.mem_cons_of_mem _ hq, h1, h2⟩
    · rw [if_neg hal] at hb
      try dsimp only at hb
      rcases List.mem_cons.mp hb with h | h
      · exact ⟨(a, delta), List.mem_cons_self _ _, by rw [h], fun _ => by rw [h]⟩
      · obtain ⟨q, hq, h1, h2⟩ := ih _ _ _ _ b h
        exact ⟨q, List.mem_cons_of_mem _ hq, h1, h2⟩

/-- `VelOk` against the pre-step world right after the agent-state phase. -/
theorem state_velOk (env : Env) {w v : World} (deltas : List (Fin 4 → ℚ))
    (hag : v.agents = w.agents) (horg : v.organisms = w.organisms)
    (hnext : v.next_agent_id = w.next_agent_id)
    (hmax : w.next_agent_id ≤ u32Max) :
    VelOk w (stepAgentStatePhase env v deltas).1 := by
  refine ⟨le_of_eq hnext.symm, le_of_eq_of_le hnext hmax, fun b hb => ?_⟩
  obtain ⟨⟨a, d⟩, hp, hid, hvel⟩ :=
    agentStateGo_mem env v.config v.organisms _ _ _ _ _ b hb
  have ham : a ∈ w.agents := by
    rw [← hag]
    exact (List.of_mem_zip hp).1
  cases hal : w.orgAliveAt a.organism_id with
  | true => exact Or.inr (Or.inl ⟨a, ham, hid.symm, hal⟩)
  | false =>
    refine Or.inl (hvel ?_)
    have h2 : w.orgAliveAt a.organism_id = false := hal
    unfold World.orgAliveAt at h2
    rw [← horg] at h2
    exact h2

/-- `VelOk` transfers along equal agents and allocator. -/
theorem velOk_congr {w v v' : World} (hag : v'.agents = v.agents)
    (hnext : v'.next_agent_id = v.next_agent_id) (h : VelOk w v) : VelOk w v' :=
  ⟨le_of_le_of_eq h.1 hnext.symm, le_of_eq_of_le hnext h.2.1,
    fun b hb => h.2.2 b (hag ▸ hb)⟩

/-- `VelOk` composes with an agent-carrying phase. -/
theorem velOk_carry {w v v' : World} (h : VelOk w v) (hc : AgentsCarry v v') :
    VelOk w v' := by
  refine ⟨le_trans h.1 hc.1, hc.2.1, fun b hb => ?_⟩
  rcases hc.2.2 b hb with ⟨a1, ha1, hid, hvel⟩ | hf
  · rcases h.2.2 a1 ha1 with h0 | ⟨a, ha, hid2, hal⟩ | hfr
    · exact Or.inl (hvel ▸ h0)
    · exact Or.inr (Or.inl ⟨a, ha, hid2.trans hid, hal⟩)
    · exact Or.inr (Or.inr (hid ▸ hfr))
  · exact Or.inr (Or.inr (le_trans h.1 hf))

/-- `TracksAgents` is a special agent-carrying relation. -/
theorem tracks_carry {v v' : World} (h : TracksAgents v v') :
    AgentsCarry v v' := by
  refine ⟨h.1, h.2.1, fun b hb => ?_⟩
  rcases h.2.2 b hb with hm | ⟨hge, _⟩
  · exact Or.inl ⟨b, hm, rfl, rfl⟩
  · exact Or.inr hge

/-- Compaction carries agents: survivors keep id and velocity. -/
theorem prune_carry (v : World) (hv : v.next_agent_id ≤ u32Max) :
    AgentsCarry v (pruneDeadEntities v) := by
  unfold pruneDeadEntities
  split_ifs with h
  · exact ⟨le_refl _, hv, fun b hb => Or.inl ⟨b, hb, rfl, rfl⟩⟩
  · refine ⟨le_refl _, hv, fun b hb => ?_⟩
    obtain ⟨a, ha, h1, h2⟩ := mem_remapAgents _ _ b hb
    exact Or.inl ⟨a, ha, h1, h2⟩

/-- The boundary phase keeps agents and the agent allocator. -/
theorem boundaryPhase_agents (env : Env) (hs : List ℚ) (hc : List ℕ) (thr : ℚ)
    (v : World) :
    (stepBoundaryPhase env hs hc thr v).agents = v.agents ∧
    (stepBoundaryPhase env hs hc thr v).next_agent_id = v.next_agent_id := by
  unfold stepBoundaryPhase
  split_ifs
  · exact ⟨(foldl_markDead_frame _ _).1, (foldl_markDead_frame _ _).2.1⟩
  · exact ⟨rfl, rfl⟩

/-- The metabolism phase keeps agents and the agent allocator. -/
theorem metabPhase_agents (env : Env) (thr : ℚ) (v : World) :
    (stepMetabolismPhase env thr v).agents = v.agents ∧
    (stepMetabolismPhase env thr v).next_agent_id = v.next_agent_id := by
  unfold stepMetabolismPhase
  split_ifs
  · exact ⟨(foldl_markDead_frame _ _).1, (foldl_markDead_frame _ _).2.1⟩
  · exact ⟨rfl, rfl⟩

/-- The growth/crowding phase keeps agents and the agent allocator. -/
theorem growthPhase_agents (env : Env) (ns : List ℚ) (ncnt : List ℕ) (thr : ℚ)
    (v : World) :
    (stepGrowthCrowdingPhase env ns ncnt thr v).agents = v.agents ∧
    (stepGrowthCrowdingPhase env ns ncnt thr v).next_agent_id =
      v.next_agent_id := by
  unfold stepGrowthCrowdingPhase
  exact ⟨(foldl_markDead_frame _ _).1, (foldl_markDead_frame _ _).2.1⟩

/-- An `ite` between a phase and the identity preserves `VelOk`. -/
theorem ite_velOk {w v : World} (c : Prop) [Decidable c] (h : VelOk w v)
    (f : World → World) (hf : VelOk w v → VelOk w (f v)) :
    VelOk w (if c then f v else v) := by
  split_ifs
  · exact hf h
  · exact h

set_option maxHeartbeats 1000000 in
/-- Velocity soundness across one whole `step`: every agent either is at
rest, carries the id of a pre-step agent of a then-live organism, or is
newly spawned. -/
theorem step_velOk (env : Env) (w : World) (hmax : w.next_agent_id ≤ u32Max) :
    VelOk w (step env w) := by
  unfold step
  dsimp only
  refine velOk_congr (env_phase_frame env _).2.1 (env_phase_frame env _).2.2.1 ?_
  refine ite_velOk _ ?_ _ (fun hu => velOk_carry hu (prune_carry _ hu.2.1))
  refine ite_velOk _ ?_ _
    (fun hu => velOk_carry hu (tracks_carry (maybeReproduce_track env _ hu.2.1)))
  refine velOk_congr (growthPhase_agents env _ _ _ _).1
    (growthPhase_agents env _ _ _ _).2 ?_
  refine velOk_congr (metabPhase_agents env _ _).1 (metabPhase_agents env _ _).2 ?_
  refine velOk_congr (boundaryPhase_agents env _ _ _ _).1
    (boundaryPhase_agents env _ _ _ _).2 ?_
  exact state_velOk env _ rfl rfl rfl hmax

/-- C3 (amended): across one `step` of a world whose dead organisms all have
boundary 0 and whose agent ids are unique and below the allocator, (1) no
organism is resurrected — every alive organism afterwards is newly created
(fresh stable id) or was already alive under the same stable id; (2) every
dead organism afterwards has boundary integrity 0; (3) every agent that
belonged to an organism already dead at the START of the step ends the step
with zero velocity (or is dropped by compaction). Agents of organisms that
die DURING the step keep their velocity until the next step, which is the
counterexample to the claim's "including the step in which the organism
died". -/
theorem c3_dead_invariants (env : Env) (w : World)
    (hmax : w.next_agent_id ≤ u32Max)
    (hdz : ∀ o ∈ w.organisms, o.alive = false → o.boundary_integrity = 0)
    (hids : (w.agents.map (·.id)).Nodup)
    (hlt : ∀ a ∈ w.agents, a.id < w.next_agent_id) :
    (∀ o' ∈ (step env w).organisms, o'.alive = true →
      w.next_organism_stable_id ≤ o'.stable_id ∨
      ∃ o ∈ w.organisms, o.stable_id = o'.stable_id ∧ o.alive = true) ∧
    (∀ o' ∈ (step env w).organisms, o'.alive = false →
      o'.boundary_integrity = 0) ∧
    (∀ a ∈ w.agents, w.orgAliveAt a.organism_id = false →
      ∀ b ∈ (step env w).agents, b.id = a.id → b.velocity = (0, 0)) := by
  have hot := step_orgTrack env w
  have hv := step_velOk env w hmax
  refine ⟨fun o' ho' hal => ?_, fun o' ho' hdead => ?_,
    fun a ha hdl b hb hbid => ?_⟩
  · rcases hot.2 o' ho' with ⟨o, ho, hd⟩ | ⟨hf, _⟩
    · exact Or.inr ⟨o, ho, hd.1, hd.2.1 hal⟩
    · exact Or.inl hf
  · rcases hot.2 o' ho' with ⟨o, ho, hd⟩ | ⟨_, hcl⟩
    · rcases hd.2.2 hdead with h0 | ⟨hod, heq⟩
      · exact h0
      · exact heq.trans (hdz o ho hod)
    · exact hcl hdead
  · rcases hv.2.2 b hb with h0 | ⟨a2, ha2, hid2, hal2⟩ | hf
    · exact h0
    · exfalso
      have heq : a2 = a :=
        List.inj_on_of_nodup_map hids ha2 ha (hid2.trans hbid)
      rw [heq] at hal2
      exact Bool.noConfusion (hdl.symm.trans hal2)
    · exact absurd (hbid ▸ hf) (not_le.mpr (hlt a ha))

/-- C3 counterexample: in the crowding scenario, organism 0 dies during the
step, yet at the end of that same step its agent (id 0, still owned by
organism 0) has velocity `(1, 0)`, not zero. -/
theorem c3_counterexample :
    ((step zeroEnv c3World).organisms.map (·.alive)).getD 0 true = false ∧
    ((step zeroEnv c3World).agents.map (·.organism_id)).getD 0 9 = 0 ∧
    ((step zeroEnv c3World).agents.map (·.velocity)).getD 0 (0, 0) = (1, 0) := by
  refine ⟨?_, ?_, ?_⟩ <;> exact of_decide_eq_true (by with_unfolding_all rfl)

/-- C3 witness: the crowding scenario satisfies the invariant hypotheses and
the amended conclusion holds on it. -/
theorem c3_dead_invariants_witness :
    (c3World.next_agent_id ≤ u32Max ∧
     (∀ o ∈ c3World.organisms, o.alive = false → o.boundary_integrity = 0) ∧
     (c3World.agents.map (·.id)).Nodup ∧
     (∀ a ∈ c3World.agents, a.id < c3World.next_agent_id)) ∧
    ((∀ o' ∈ (step zeroEnv c3World).organisms, o'.alive = true →
       c3World.next_organism_stable_id ≤ o'.stable_id ∨
       ∃ o ∈ c3World.organisms, o.stable_id = o'.stable_id ∧ o.alive = true) ∧
     (∀ o' ∈ (step zeroEnv c3World).organisms, o'.alive = false →
       o'.boundary_integrity = 0) ∧
     (∀ a ∈ c3World.agents, c3World.orgAliveAt a.organism_id = false →
       ∀ b ∈ (step zeroEnv c3World).agents, b.id = a.id →
         b.velocity = (0, 0))) := by
  have h1 : c3World.next_agent_id ≤ u32Max :=
    of_decide_eq_true (by with_unfolding_all rfl)
  have h2 : ∀ o ∈ c3World.organisms, o.alive = false →
      o.boundary_integrity = 0 :=
    of_decide_eq_true (by with_unfolding_all rfl)
  have h3 : (c3World.agents.map (·.id)).Nodup :=
    of_decide_eq_true (by with_unfolding_all rfl)
  have h4 : ∀ a ∈ c3World.agents, a.id < c3World.next_agent_id :=
    of_decide_eq_true (by with_unfolding_all rfl)
  exact ⟨⟨h1, h2, h3, h4⟩, c3_dead_invariants zeroEnv c3World h1 h2 h3 h4⟩

end DL
